import Mathlib

/-!
Shallow embedding of the "localhost" HTTP/1.1 server (a Rust program) and
verification of a set of claims about it.

Modelling conventions:
* Rust `&[u8]` / `Vec<u8>` buffers are `List Nat` (each element a byte value).
* Rust `String` / `&str` values are `List Char` (`Str` below); a `&str` is a
  valid-UTF-8 byte string, and all patterns searched for by the program are
  ASCII, so byte positions of ASCII patterns in a valid string coincide (in
  order, first occurrence to first occurrence) with char positions, because
  UTF-8 continuation bytes are `≥ 0x80` and ASCII bytes occur only as
  stand-alone characters.
* `std::str::from_utf8` is modelled by an executable UTF-8 decoder;
  `String::from_utf8_lossy` by an executable lossy decoder following the
  WHATWG maximal-subpart replacement policy, as Rust does.
* Rust's Unicode-aware `char` classifications are modelled on the fragment
  the program exercises: `to_lowercase`/`to_uppercase` as the ASCII case
  maps (no Unicode character lowercases onto the ASCII letters matched by
  this program's patterns), `trim`/`split_whitespace` with the full Unicode
  White_Space code-point list used by `char::is_whitespace`.
* The ambient filesystem, clock and CGI child process are parameters
  (a record of functions / explicit `now` arguments); socket reads and
  writes take the outcome of the underlying non-blocking call as input.
* Rust functions that can panic are modelled with `Option`, `none` marking
  the panic.
-/

deriving instance DecidableEq for Except

namespace LocalhostSpec

/-- Character strings as used by the Rust code (`String` / `&str`). -/
abbrev Str := List Char

/-- Convenience coercion from a Lean string literal. -/
def str (s : String) : Str := s.toList

/-- Bytes of an ASCII/UTF-8 Lean string literal. -/
def bstr (s : String) : List Nat := (s.toList.map (fun c => c.toNat))

/- ---------------------------------------------------------------- -/
/- Generic list searching / splitting helpers (Rust `str`/slice ops) -/
/- ---------------------------------------------------------------- -/

/-- Index of the first occurrence of `pat` as a contiguous sub-list of `l`
(Rust `str::find` / `contains` for a literal pattern). -/
def findSubIdx {α : Type} [DecidableEq α] (pat : List α) : List α → Option Nat
  | [] => if pat = [] then some 0 else none
  | a :: rest =>
    if pat.isPrefixOf (a :: rest) then some 0
    else (findSubIdx pat rest).map (· + 1)

/-- Whether `pat` occurs as a contiguous sub-list of `l`. -/
def containsSub {α : Type} [DecidableEq α] (pat l : List α) : Bool :=
  (findSubIdx pat l).isSome

/-- Index of the last occurrence of element `c` (Rust `str::rfind`). -/
def rfindIdx {α : Type} [DecidableEq α] (c : α) (l : List α) : Option Nat :=
  match findSubIdx [c] l.reverse with
  | none => none
  | some i => some (l.length - 1 - i)

/-- Rust `split` with a one-element pattern: always returns a non-empty
list of (possibly empty) fragments. -/
def splitOnElem {α : Type} [DecidableEq α] (c : α) : List α → List (List α)
  | [] => [[]]
  | a :: rest =>
    if a = c then [] :: splitOnElem c rest
    else
      match splitOnElem c rest with
      | [] => [[a]]
      | h :: t => (a :: h) :: t

/-- One step of splitting on a (non-empty) sub-list pattern, fuelled by the
remaining length: each found occurrence consumes at least one element. -/
def splitOnListGo {α : Type} [DecidableEq α] (pat : List α) : Nat → List α → List (List α)
  | 0, l => [l]
  | fuel + 1, l =>
    match findSubIdx pat l with
    | none => [l]
    | some i => l.take i :: splitOnListGo pat fuel (l.drop (i + pat.length))

/-- Rust `split` with a multi-element literal pattern (non-overlapping,
left to right). -/
def splitOnList {α : Type} [DecidableEq α] (pat l : List α) : List (List α) :=
  if pat = [] then [l] else splitOnListGo pat l.length l

/-- Split on elements satisfying `p`, keeping empty fragments. -/
def splitOnPred {α : Type} (p : α → Bool) : List α → List (List α)
  | [] => [[]]
  | a :: rest =>
    if p a then [] :: splitOnPred p rest
    else
      match splitOnPred p rest with
      | [] => [[a]]
      | h :: t => (a :: h) :: t

/-- Strip at most one trailing `cr` element (used by the `lines` model). -/
def stripTrailing {α : Type} [DecidableEq α] (cr : α) (l : List α) : List α :=
  if l.getLast? = some cr then l.dropLast else l

/-- Rust `str::lines` over an arbitrary element type: split at `nl`; every
fragment before the last was `nl`-terminated and has one trailing `cr`
stripped; a final empty fragment is dropped (a trailing newline creates no
line), while a non-empty unterminated final fragment is kept verbatim
(a lone trailing `cr` is not stripped there, as in Rust). -/
def rustLinesAny {α : Type} [DecidableEq α] (nl cr : α) (s : List α) : List (List α) :=
  let parts := splitOnElem nl s
  let init := parts.dropLast.map (stripTrailing cr)
  match parts.getLast? with
  | some [] => init
  | some last => init ++ [last]
  | none => init

/-- Rust `str::lines` on characters. -/
def rustLines (s : Str) : List Str := rustLinesAny '\n' '\r' s

/-- Rust `str::lines` viewed at the byte level (valid for UTF-8 data, in
which the bytes 0x0A and 0x0D occur only as the characters LF and CR). -/
def rustLinesB (b : List Nat) : List (List Nat) := rustLinesAny 10 13 b

/-- Removes all leading occurrences of `c` (Rust `trim_start_matches(char)`). -/
def trimStartMatches {α : Type} [DecidableEq α] (c : α) (l : List α) : List α :=
  l.dropWhile (· = c)

/-- Removes all trailing occurrences of `c` (Rust `trim_end_matches(char)`). -/
def trimEndMatchesElem {α : Type} [DecidableEq α] (c : α) (l : List α) : List α :=
  (l.reverse.dropWhile (· = c)).reverse

/-- Repeatedly removes the suffix `pat`, fuelled (Rust
`trim_end_matches(&str)` with a literal pattern). -/
def trimEndMatchesListGo {α : Type} [DecidableEq α] (pat : List α) : Nat → List α → List α
  | 0, l => l
  | fuel + 1, l =>
    if pat ≠ [] ∧ pat.isSuffixOf l then
      trimEndMatchesListGo pat fuel (l.take (l.length - pat.length))
    else l

/-- Rust `trim_end_matches(&str)`. -/
def trimEndMatchesList {α : Type} [DecidableEq α] (pat l : List α) : List α :=
  trimEndMatchesListGo pat l.length l

/-- Removes all leading and trailing occurrences of `c`
(Rust `trim_matches(char)`). -/
def trimMatchesElem {α : Type} [DecidableEq α] (c : α) (l : List α) : List α :=
  trimEndMatchesElem c (trimStartMatches c l)

/- ---------------------------------------------------------------- -/
/- Character classes, case maps, numeric parsing                     -/
/- ---------------------------------------------------------------- -/

/-- The Unicode White_Space code points: Rust `char::is_whitespace`. -/
def isRustWs (c : Char) : Bool :=
  c.toNat ∈ [0x09, 0x0A, 0x0B, 0x0C, 0x0D, 0x20, 0x85, 0xA0, 0x1680,
    0x2000, 0x2001, 0x2002, 0x2003, 0x2004, 0x2005, 0x2006, 0x2007,
    0x2008, 0x2009, 0x200A, 0x2028, 0x2029, 0x202F, 0x205F, 0x3000]

/-- ASCII whitespace at the byte level (the fragment of `is_whitespace`
visible in single bytes of UTF-8 data). -/
def isWsByte (b : Nat) : Bool := b ∈ [9, 10, 11, 12, 13, 32]

/-- Rust `str::trim` (drops `is_whitespace` characters at both ends). -/
def rustTrim (s : Str) : Str :=
  ((s.dropWhile isRustWs).reverse.dropWhile isRustWs).reverse

/-- Byte-level trim of ASCII whitespace. -/
def bTrim (b : List Nat) : List Nat :=
  ((b.dropWhile isWsByte).reverse.dropWhile isWsByte).reverse

/-- Rust `str::split_whitespace`: fragments between whitespace runs. -/
def splitWs (s : Str) : List Str :=
  (splitOnPred isRustWs s).filter (· ≠ [])

/-- ASCII lower-casing of one character (the fragment of Rust
`to_lowercase` relevant to the ASCII patterns this program matches). -/
def toLowerAscii (c : Char) : Char :=
  if 'A' ≤ c ∧ c ≤ 'Z' then Char.ofNat (c.toNat + 32) else c

/-- ASCII upper-casing of one character. -/
def toUpperAscii (c : Char) : Char :=
  if 'a' ≤ c ∧ c ≤ 'z' then Char.ofNat (c.toNat - 32) else c

/-- ASCII lower-casing of a string. -/
def lowerStr (s : Str) : Str := s.map toLowerAscii

/-- ASCII upper-casing of a string. -/
def upperStr (s : Str) : Str := s.map toUpperAscii

/-- ASCII lower-casing of one byte. -/
def bLower1 (b : Nat) : Nat := if 65 ≤ b ∧ b ≤ 90 then b + 32 else b

/-- ASCII lower-casing of a byte string. -/
def bLower (b : List Nat) : List Nat := b.map bLower1

/-- Value of a digit character in the given radix (Rust `char::to_digit`). -/
def charDigit (radix : Nat) (c : Char) : Option Nat :=
  let v : Option Nat :=
    if '0' ≤ c ∧ c ≤ '9' then some (c.toNat - 48)
    else if 'a' ≤ c ∧ c ≤ 'z' then some (c.toNat - 97 + 10)
    else if 'A' ≤ c ∧ c ≤ 'Z' then some (c.toNat - 65 + 10)
    else none
  match v with
  | some d => if d < radix then some d else none
  | none => none

/-- Value of a digit byte in the given radix. -/
def byteDigit (radix : Nat) (b : Nat) : Option Nat :=
  let v : Option Nat :=
    if 48 ≤ b ∧ b ≤ 57 then some (b - 48)
    else if 97 ≤ b ∧ b ≤ 122 then some (b - 97 + 10)
    else if 65 ≤ b ∧ b ≤ 90 then some (b - 65 + 10)
    else none
  match v with
  | some d => if d < radix then some d else none
  | none => none

/-- Digit-sequence accumulation with overflow check against `maxVal`
(models Rust's checked accumulation in `from_str_radix`). -/
def parseDigitsGo {α : Type} (digit? : α → Option Nat) (radix maxVal : Nat) :
    Nat → List α → Option Nat
  | acc, [] => some acc
  | acc, d :: ds =>
    match digit? d with
    | none => none
    | some v =>
      let acc := acc * radix + v
      if acc > maxVal then none else parseDigitsGo digit? radix maxVal acc ds

/-- Parses a non-empty digit sequence. -/
def parseDigits {α : Type} (digit? : α → Option Nat) (radix maxVal : Nat)
    (ds : List α) : Option Nat :=
  if ds.isEmpty then none else parseDigitsGo digit? radix maxVal 0 ds

/-- Rust `from_str_radix` / `FromStr` for an unsigned integer type with
maximal value `maxVal`: an optional sign (`+`, or `-` succeeding only on
value zero) followed by at least one digit, with overflow detection. -/
def rustParseUIntG {α : Type} [DecidableEq α] (plus minus : α)
    (digit? : α → Option Nat) (radix maxVal : Nat) (s : List α) : Option Nat :=
  match s with
  | [] => none
  | c :: rest =>
    if c = plus then parseDigits digit? radix maxVal rest
    else if c = minus then
      match parseDigits digit? radix maxVal rest with
      | some 0 => some 0
      | _ => none
    else parseDigits digit? radix maxVal s

/-- Maximal value of Rust `usize` on the 64-bit targets this program
is built for. -/
def usizeMax : Nat := 2 ^ 64 - 1

/-- The modulus of Rust `usize` arithmetic on those targets: a `+` on
`usize` wraps modulo this in release builds (debug builds panic). -/
def usizeSize : Nat := 2 ^ 64

/-- Rust `str::parse::<usize>()`. -/
def parseUsize (s : Str) : Option Nat :=
  rustParseUIntG '+' '-' (charDigit 10) 10 usizeMax s

/-- Rust `str::parse::<u16>()`. -/
def parseU16 (s : Str) : Option Nat :=
  rustParseUIntG '+' '-' (charDigit 10) 10 65535 s

/-- Rust `u8::from_str_radix(s, 16)`. -/
def parseU8Hex (s : Str) : Option Nat :=
  rustParseUIntG '+' '-' (charDigit 16) 16 255 s

/-- Byte-level Rust `str::parse::<usize>()` (the digits and signs are
single ASCII bytes). -/
def parseUsizeB (s : List Nat) : Option Nat :=
  rustParseUIntG 43 45 (byteDigit 10) 10 usizeMax s

/-- Decimal rendering of a natural number as a character string. -/
def natStr (n : Nat) : Str := (toString n).toList

/- ---------------------------------------------------------------- -/
/- UTF-8: validation, decoding, lossy decoding, encoding             -/
/- ---------------------------------------------------------------- -/

/-- Whether a byte is a UTF-8 continuation byte (0x80..0xBF). -/
def isCont (b : Nat) : Bool := 0x80 ≤ b ∧ b ≤ 0xBF

/-- Strict UTF-8 decoding (Rust `std::str::from_utf8`): `none` on any
ill-formed sequence.  The byte-range side conditions follow the UTF-8
well-formedness table (RFC 3629), excluding overlong forms and surrogates. -/
def utf8Decode : List Nat → Option Str
  | [] => some []
  | b :: rest =>
    if b < 0x80 then (utf8Decode rest).map (fun cs => Char.ofNat b :: cs)
    else if 0xC2 ≤ b ∧ b ≤ 0xDF then
      match rest with
      | c1 :: rest2 =>
        if isCont c1 then
          (utf8Decode rest2).map (fun cs => Char.ofNat ((b - 0xC0) * 0x40 + (c1 - 0x80)) :: cs)
        else none
      | [] => none
    else if 0xE0 ≤ b ∧ b ≤ 0xEF then
      match rest with
      | c1 :: rest2 =>
        if (b = 0xE0 ∧ 0xA0 ≤ c1 ∧ c1 ≤ 0xBF) ∨
           (0xE1 ≤ b ∧ b ≤ 0xEC ∧ isCont c1) ∨
           (b = 0xED ∧ 0x80 ≤ c1 ∧ c1 ≤ 0x9F) ∨
           (0xEE ≤ b ∧ b ≤ 0xEF ∧ isCont c1) then
          match rest2 with
          | c2 :: rest3 =>
            if isCont c2 then
              (utf8Decode rest3).map (fun cs =>
                Char.ofNat ((b - 0xE0) * 0x1000 + (c1 - 0x80) * 0x40 + (c2 - 0x80)) :: cs)
            else none
          | [] => none
        else none
      | [] => none
    else if 0xF0 ≤ b ∧ b ≤ 0xF4 then
      match rest with
      | c1 :: rest2 =>
        if (b = 0xF0 ∧ 0x90 ≤ c1 ∧ c1 ≤ 0xBF) ∨
           (0xF1 ≤ b ∧ b ≤ 0xF3 ∧ isCont c1) ∨
           (b = 0xF4 ∧ 0x80 ≤ c1 ∧ c1 ≤ 0x8F) then
          match rest2 with
          | c2 :: rest3 =>
            if isCont c2 then
              match rest3 with
              | c3 :: rest4 =>
                if isCont c3 then
                  (utf8Decode rest4).map (fun cs =>
                    Char.ofNat ((b - 0xF0) * 0x40000 + (c1 - 0x80) * 0x1000 +
                      (c2 - 0x80) * 0x40 + (c3 - 0x80)) :: cs)
                else none
              | [] => none
            else none
          | [] => none
        else none
      | [] => none
    else none

/-- Whether a byte buffer is valid UTF-8 (`std::str::from_utf8(..).is_ok()`). -/
def isValidUtf8 (b : List Nat) : Bool := (utf8Decode b).isSome

/-- The UTF-8 bytes of the replacement character U+FFFD. -/
def fffd : List Nat := [0xEF, 0xBF, 0xBD]

/-- Lossy UTF-8 decoding to bytes (Rust `String::from_utf8_lossy` viewed
through `str::as_bytes`): well-formed sequences are copied verbatim, each
maximal ill-formed subpart is replaced by one U+FFFD (WHATWG policy). -/
def utf8Lossy : List Nat → List Nat
  | [] => []
  | b :: rest =>
    if b < 0x80 then b :: utf8Lossy rest
    else if 0xC2 ≤ b ∧ b ≤ 0xDF then
      match rest with
      | c1 :: rest2 =>
        if isCont c1 then b :: c1 :: utf8Lossy rest2
        else fffd ++ utf8Lossy (c1 :: rest2)
      | [] => fffd
    else if 0xE0 ≤ b ∧ b ≤ 0xEF then
      match rest with
      | c1 :: rest2 =>
        if (b = 0xE0 ∧ 0xA0 ≤ c1 ∧ c1 ≤ 0xBF) ∨
           (0xE1 ≤ b ∧ b ≤ 0xEC ∧ isCont c1) ∨
           (b = 0xED ∧ 0x80 ≤ c1 ∧ c1 ≤ 0x9F) ∨
           (0xEE ≤ b ∧ b ≤ 0xEF ∧ isCont c1) then
          match rest2 with
          | c2 :: rest3 =>
            if isCont c2 then b :: c1 :: c2 :: utf8Lossy rest3
            else fffd ++ utf8Lossy (c2 :: rest3)
          | [] => fffd
        else fffd ++ utf8Lossy (c1 :: rest2)
      | [] => fffd
    else if 0xF0 ≤ b ∧ b ≤ 0xF4 then
      match rest with
      | c1 :: rest2 =>
        if (b = 0xF0 ∧ 0x90 ≤ c1 ∧ c1 ≤ 0xBF) ∨
           (0xF1 ≤ b ∧ b ≤ 0xF3 ∧ isCont c1) ∨
           (b = 0xF4 ∧ 0x80 ≤ c1 ∧ c1 ≤ 0x8F) then
          match rest2 with
          | c2 :: rest3 =>
            if isCont c2 then
              match rest3 with
              | c3 :: rest4 =>
                if isCont c3 then b :: c1 :: c2 :: c3 :: utf8Lossy rest4
                else fffd ++ utf8Lossy (c3 :: rest4)
              | [] => fffd
            else fffd ++ utf8Lossy (c2 :: rest3)
          | [] => fffd
        else fffd ++ utf8Lossy (c1 :: rest2)
      | [] => fffd
    else fffd ++ utf8Lossy rest

/-- UTF-8 encoding of one character. -/
def utf8EncodeChar (c : Char) : List Nat :=
  let n := c.toNat
  if n < 0x80 then [n]
  else if n < 0x800 then [0xC0 + n / 0x40, 0x80 + n % 0x40]
  else if n < 0x10000 then
    [0xE0 + n / 0x1000, 0x80 + (n / 0x40) % 0x40, 0x80 + n % 0x40]
  else
    [0xF0 + n / 0x40000, 0x80 + (n / 0x1000) % 0x40, 0x80 + (n / 0x40) % 0x40,
      0x80 + n % 0x40]

/-- UTF-8 encoding of a string (Rust `str::as_bytes` / `String::into_bytes`). -/
def utf8Encode (s : Str) : List Nat := (s.map utf8EncodeChar).flatten

/-- Total decoding helper for byte slices known to be valid UTF-8
(char-boundary-aligned slices of a validated buffer). -/
def decodeD (b : List Nat) : Str := (utf8Decode b).getD []

/- ---------------------------------------------------------------- -/
/- src/http/method.rs                                                -/
/- ---------------------------------------------------------------- -/

/-- HTTP request methods (`Method` in `src/http/method.rs`). -/
inductive Method where
  | get | post | delete | head | put | options
deriving DecidableEq, Repr

/-- Rust `Method::as_str`. -/
def Method.asStr : Method → Str
  | .get => str "GET"
  | .post => str "POST"
  | .delete => str "DELETE"
  | .head => str "HEAD"
  | .put => str "PUT"
  | .options => str "OPTIONS"

/-- Rust `Method::from_str` (case-insensitive via `to_uppercase`). -/
def methodFromStr (s : Str) : Option Method :=
  let u := upperStr s
  if u = str "GET" then some .get
  else if u = str "POST" then some .post
  else if u = str "DELETE" then some .delete
  else if u = str "HEAD" then some .head
  else if u = str "PUT" then some .put
  else if u = str "OPTIONS" then some .options
  else none

/- ---------------------------------------------------------------- -/
/- src/http/status.rs                                                -/
/- ---------------------------------------------------------------- -/

/-- The supported HTTP status codes (`StatusCode` in `src/http/status.rs`). -/
inductive StatusCode where
  | ok | created | noContent
  | movedPermanently | found | notModified | temporaryRedirect | permanentRedirect
  | badRequest | forbidden | notFound | methodNotAllowed | requestTimeout
  | payloadTooLarge
  | internalServerError | notImplemented | badGateway | serviceUnavailable
deriving DecidableEq, Repr

/-- Rust `StatusCode::code`. -/
def StatusCode.code : StatusCode → Nat
  | .ok => 200
  | .created => 201
  | .noContent => 204
  | .movedPermanently => 301
  | .found => 302
  | .notModified => 304
  | .temporaryRedirect => 307
  | .permanentRedirect => 308
  | .badRequest => 400
  | .forbidden => 403
  | .notFound => 404
  | .methodNotAllowed => 405
  | .requestTimeout => 408
  | .payloadTooLarge => 413
  | .internalServerError => 500
  | .notImplemented => 501
  | .badGateway => 502
  | .serviceUnavailable => 503

/-- Rust `StatusCode::reason`. -/
def StatusCode.reason : StatusCode → Str
  | .ok => str "OK"
  | .created => str "Created"
  | .noContent => str "No Content"
  | .movedPermanently => str "Moved Permanently"
  | .found => str "Found"
  | .notModified => str "Not Modified"
  | .temporaryRedirect => str "Temporary Redirect"
  | .permanentRedirect => str "Permanent Redirect"
  | .badRequest => str "Bad Request"
  | .forbidden => str "Forbidden"
  | .notFound => str "Not Found"
  | .methodNotAllowed => str "Method Not Allowed"
  | .requestTimeout => str "Request Timeout"
  | .payloadTooLarge => str "Payload Too Large"
  | .internalServerError => str "Internal Server Error"
  | .notImplemented => str "Not Implemented"
  | .badGateway => str "Bad Gateway"
  | .serviceUnavailable => str "Service Unavailable"

/-- Rust `StatusCode::from_code`. -/
def StatusCode.fromCode (code : Nat) : Option StatusCode :=
  match code with
  | 200 => some .ok
  | 201 => some .created
  | 204 => some .noContent
  | 301 => some .movedPermanently
  | 302 => some .found
  | 304 => some .notModified
  | 307 => some .temporaryRedirect
  | 308 => some .permanentRedirect
  | 400 => some .badRequest
  | 403 => some .forbidden
  | 404 => some .notFound
  | 405 => some .methodNotAllowed
  | 408 => some .requestTimeout
  | 413 => some .payloadTooLarge
  | 500 => some .internalServerError
  | 501 => some .notImplemented
  | 502 => some .badGateway
  | 503 => some .serviceUnavailable
  | _ => none

/-- Rust `Display for StatusCode`: `"{code} {reason}"`. -/
def StatusCode.display (st : StatusCode) : Str :=
  natStr st.code ++ str " " ++ st.reason

/- ---------------------------------------------------------------- -/
/- src/http/headers.rs                                               -/
/- ---------------------------------------------------------------- -/

/-- Case-insensitive multi-valued header map (`Headers` in
`src/http/headers.rs`).  The Rust `HashMap<String, Vec<String>>` has
unspecified iteration order; the model fixes arrival order of keys, one
entry per (already lowercased) key. -/
structure Headers where
  entries : List (Str × List Str)
deriving DecidableEq, Repr

/-- Rust `Headers::new`. -/
def Headers.new : Headers := ⟨[]⟩

/-- Looks up the value list stored under the lowercased key. -/
def Headers.lookupKey (h : Headers) (name : Str) : Option (List Str) :=
  (h.entries.find? (fun e => e.1 = lowerStr name)).map (·.2)

/-- Rust `Headers::get`: first value under the case-insensitive name. -/
def Headers.get (h : Headers) (name : Str) : Option Str :=
  (h.lookupKey name).bind List.head?

/-- Replaces the entry for key `k` in place. -/
def setEntry (k : Str) (vs : List Str) : List (Str × List Str) → List (Str × List Str)
  | [] => [(k, vs)]
  | e :: rest => if e.1 = k then (k, vs) :: rest else e :: setEntry k vs rest

/-- Rust `Headers::set`: replace all values for the (lowercased) name. -/
def Headers.set (h : Headers) (name value : Str) : Headers :=
  ⟨setEntry (lowerStr name) [value] h.entries⟩

/-- Appends a value to the entry for key `k`, creating it if absent. -/
def addEntry (k : Str) (v : Str) : List (Str × List Str) → List (Str × List Str)
  | [] => [(k, [v])]
  | e :: rest => if e.1 = k then (e.1, e.2 ++ [v]) :: rest else e :: addEntry k v rest

/-- Rust `Headers::add`: append a value under the (lowercased) name. -/
def Headers.add (h : Headers) (name value : Str) : Headers :=
  ⟨addEntry (lowerStr name) value h.entries⟩

/-- Rust `Headers::connection`. -/
def Headers.connection (h : Headers) : Option Str := h.get (str "connection")

/-- Rust `Headers::keep_alive`: true unless the Connection value equals
"close" ignoring case. -/
def Headers.keepAlive (h : Headers) : Bool :=
  match h.connection with
  | none => true
  | some c => decide (lowerStr c ≠ str "close")

/-- Rust `Headers::content_length`. -/
def Headers.contentLength (h : Headers) : Option Nat :=
  (h.get (str "content-length")).bind parseUsize

/-- Rust `Headers::content_type`. -/
def Headers.contentType (h : Headers) : Option Str := h.get (str "content-type")

/-- Rust `Headers::host`. -/
def Headers.host (h : Headers) : Option Str := h.get (str "host")

/-- Rust `Headers::is_chunked`. -/
def Headers.isChunked (h : Headers) : Bool :=
  match h.get (str "transfer-encoding") with
  | none => false
  | some te => containsSub (str "chunked") (lowerStr te)

/-- Rust `Headers::to_http_string`: each (name, value) pair becomes one
`name: value CR LF` line, values in per-name insertion order. -/
def Headers.toHttpString (h : Headers) : Str :=
  (h.entries.map (fun e =>
    (e.2.map (fun v => e.1 ++ str ": " ++ v ++ str "\r\n")).flatten)).flatten

/- ---------------------------------------------------------------- -/
/- src/http/request.rs                                               -/
/- ---------------------------------------------------------------- -/

/-- Query map model for Rust's `HashMap<String, String>`: arrival-ordered
association list with unique keys; `insert` replaces in place. -/
def qInsert (k v : Str) : List (Str × Str) → List (Str × Str)
  | [] => [(k, v)]
  | e :: rest => if e.1 = k then (k, v) :: rest else e :: qInsert k v rest

/-- Lookup in the query map (Rust `HashMap::get`). -/
def qGet (m : List (Str × Str)) (k : Str) : Option Str :=
  (m.find? (fun e => e.1 = k)).map (·.2)

/-- Rust `Request::url_decode`: percent-decoding where `%` followed by two
characters is decoded through `u8::from_str_radix(.., 16)` (pushed as the
char with that scalar value) and otherwise preserved literally, and `+`
becomes a space. -/
def urlDecode : Str → Str
  | [] => []
  | '%' :: c1 :: c2 :: rest =>
    match parseU8Hex [c1, c2] with
    | some b => Char.ofNat b :: urlDecode rest
    | none => '%' :: c1 :: c2 :: urlDecode rest
  | '%' :: c1 :: [] => ['%', c1]
  | '%' :: [] => ['%']
  | '+' :: rest => ' ' :: urlDecode rest
  | c :: rest => c :: urlDecode rest

/-- Rust `Request::parse_path_and_query`: split the request target at the
first `?`; fold the `&`-separated pairs into the query map, splitting each
pair at its first `=` (a non-empty pair without `=` maps its decoded text
to the empty value). -/
def parsePathAndQuery (uri : Str) : Str × List (Str × Str) :=
  match findSubIdx ['?'] uri with
  | none => (uri, [])
  | some pos =>
    let path := uri.take pos
    let queryStr := uri.drop (pos + 1)
    let query := (splitOnElem '&' queryStr).foldl (fun m pair =>
      match findSubIdx ['='] pair with
      | some eqPos => qInsert (urlDecode (pair.take eqPos)) (urlDecode (pair.drop (eqPos + 1))) m
      | none => if pair ≠ [] then qInsert (urlDecode pair) [] m else m) []
    (path, query)

/-- An HTTP request (`Request` in `src/http/request.rs`). -/
structure Request where
  method : Method
  path : Str
  query : List (Str × Str)
  version : Str
  headers : Headers
  body : List Nat
deriving DecidableEq, Repr

/-- Rust `Request::new`. -/
def Request.new (method : Method) (target : Str) : Request :=
  let pq := parsePathAndQuery target
  { method := method, path := pq.1, query := pq.2, version := str "HTTP/1.1",
    headers := Headers.new, body := [] }

/-- Rust `Request::content_type`. -/
def Request.contentType (r : Request) : Option Str := r.headers.contentType

/- ---------------------------------------------------------------- -/
/- src/http/response.rs                                              -/
/- ---------------------------------------------------------------- -/

/-- An HTTP response (`Response` in `src/http/response.rs`). -/
structure Response where
  version : Str
  status : StatusCode
  headers : Headers
  body : List Nat
deriving DecidableEq, Repr

/-- Rust `Response::new`: fresh headers carrying the Server header. -/
def Response.new (status : StatusCode) : Response :=
  { version := str "HTTP/1.1", status := status,
    headers := Headers.new.set (str "Server") (str "localhost/0.1.0"),
    body := [] }

/-- Rust `Response::content_type` (builder). -/
def Response.contentType (r : Response) (mime : Str) : Response :=
  { r with headers := r.headers.set (str "Content-Type") mime }

/-- Rust `Response::body` (builder): sets the body and the Content-Length
header from its byte length. -/
def Response.withBody (r : Response) (b : List Nat) : Response :=
  { r with headers := r.headers.set (str "Content-Length") (natStr b.length),
           body := b }

/-- Rust `Response::body_str`. -/
def Response.bodyStr (r : Response) (s : Str) : Response :=
  r.withBody (utf8Encode s)

/-- Rust `Response::html`. -/
def Response.html (r : Response) (s : Str) : Response :=
  (r.contentType (str "text/html; charset=utf-8")).bodyStr s

/-- Rust `Response::json`. -/
def Response.json (r : Response) (s : Str) : Response :=
  (r.contentType (str "application/json")).bodyStr s

/-- Rust `Response::connection` (builder). -/
def Response.connection (r : Response) (v : Str) : Response :=
  { r with headers := r.headers.set (str "Connection") v }

/-- Rust `Response::to_bytes`: status line, serialized headers, one blank
CR LF line, body. -/
def Response.toBytes (r : Response) : List Nat :=
  utf8Encode (r.version ++ str " " ++ r.status.display ++ str "\r\n") ++
  utf8Encode r.headers.toHttpString ++
  [13, 10] ++
  r.body

/-- Rust `mime_type` in `src/http/response.rs`: extension after the last
dot (the whole name when there is no dot), lowercased, against the closed
MIME table. -/
def mimeType (path : Str) : Str :=
  let ext := ((splitOnElem '.' path).getLast?).getD path
  let e := lowerStr ext
  if e = str "html" ∨ e = str "htm" then str "text/html; charset=utf-8"
  else if e = str "css" then str "text/css; charset=utf-8"
  else if e = str "js" then str "application/javascript; charset=utf-8"
  else if e = str "json" then str "application/json"
  else if e = str "xml" then str "application/xml"
  else if e = str "txt" then str "text/plain; charset=utf-8"
  else if e = str "png" then str "image/png"
  else if e = str "jpg" ∨ e = str "jpeg" then str "image/jpeg"
  else if e = str "gif" then str "image/gif"
  else if e = str "svg" then str "image/svg+xml"
  else if e = str "ico" then str "image/x-icon"
  else if e = str "webp" then str "image/webp"
  else if e = str "woff" then str "font/woff"
  else if e = str "woff2" then str "font/woff2"
  else if e = str "ttf" then str "font/ttf"
  else if e = str "otf" then str "font/otf"
  else if e = str "pdf" then str "application/pdf"
  else if e = str "zip" then str "application/zip"
  else if e = str "mp3" then str "audio/mpeg"
  else if e = str "mp4" then str "video/mp4"
  else if e = str "webm" then str "video/webm"
  else str "application/octet-stream"

/- ---------------------------------------------------------------- -/
/- src/http/parser.rs: completeness detection                         -/
/- ---------------------------------------------------------------- -/

/-- The bytes of CR LF CR LF. -/
def crlfcrlfB : List Nat := [13, 10, 13, 10]

/-- The bytes of the terminal chunk marker `0 CR LF CR LF`. -/
def zeroChunkB : List Nat := [48, 13, 10, 13, 10]

/-- Rust `RequestParser::has_complete_headers`: the buffer decodes as
UTF-8 and the decoded string contains CR LF CR LF (an ASCII pattern, so
string containment equals byte containment). -/
def hasCompleteHeaders (b : List Nat) : Bool :=
  isValidUtf8 b && containsSub crlfcrlfB b

/-- Scans lines for the first one whose lowercasing starts with
`content-length:`, then parses the rest of that line (trimmed) as usize;
the scan stops at that line whether or not the parse succeeds. -/
def contentLengthOfLines : List (List Nat) → Option Nat
  | [] => none
  | l :: rest =>
    if (bstr "content-length:").isPrefixOf (bLower l) then
      parseUsizeB (bTrim (l.drop 15))
    else contentLengthOfLines rest

/-- Rust `RequestParser::get_content_length`: `None` unless the buffer is
valid UTF-8, else the line scan above over all lines of the buffer. -/
def getContentLength (b : List Nat) : Option Nat :=
  if isValidUtf8 b then contentLengthOfLines (rustLinesB b) else none

/-- Whether some line's lowercasing starts with `transfer-encoding:` and
contains `chunked`. -/
def chunkedInLines (ls : List (List Nat)) : Bool :=
  ls.any (fun l =>
    let low := bLower l
    (bstr "transfer-encoding:").isPrefixOf low && containsSub (bstr "chunked") low)

/-- Rust `RequestParser::is_chunked`. -/
def isChunkedBuf (b : List Nat) : Bool :=
  isValidUtf8 b && chunkedInLines (rustLinesB b)

/-- Rust `RequestParser::is_complete`.  The comparison
`data.len() >= body_start + content_length` adds two `usize` values, and
`content_length` is parsed from the buffer and can reach `usize::MAX`, so
the addition is reduced modulo 2^64 — the wrapping semantics of the
release build (a debug build panics on that overflow). -/
def isComplete (b : List Nat) : Bool :=
  if !hasCompleteHeaders b then false
  else if !isValidUtf8 b then false
  else
    match findSubIdx crlfcrlfB b with
    | none => false
    | some headerEnd =>
      let bodyStart := headerEnd + 4
      match getContentLength b with
      | some contentLength =>
        decide (b.length ≥ (bodyStart + contentLength) % usizeSize)
      | none =>
        if isChunkedBuf b then containsSub zeroChunkB (b.drop bodyStart)
        else true

/-- Content-Length extraction as the specification words it: scan the
buffer's lines for the case-insensitive line prefix `content-length:` and
parse the value of that line (stated directly on the bytes, with no
UTF-8 validity gate). -/
def specContentLength (b : List Nat) : Option Nat :=
  contentLengthOfLines (rustLinesB b)

/-- Chunked-transfer detection as the specification words it
(case-insensitive, no UTF-8 validity gate). -/
def specChunked (b : List Nat) : Bool :=
  chunkedInLines (rustLinesB b)

/-- Request completeness as the amended claim words it, for any byte
buffer: headers complete iff the buffer contains CR LF CR LF; with a
Content-Length value, complete iff the buffer holds at least
(header-end + 4 + Content-Length) mod 2^64 bytes (the sum is a `usize`
addition, which wraps in release builds); else with chunked
Transfer-Encoding, complete iff the terminal chunk marker occurs after
the header boundary; else complete. -/
def specIsComplete (b : List Nat) : Bool :=
  match findSubIdx crlfcrlfB b with
  | none => false
  | some headerEnd =>
    match specContentLength b with
    | some contentLength =>
      decide (b.length ≥ (headerEnd + 4 + contentLength) % usizeSize)
    | none =>
      if specChunked b then containsSub zeroChunkB (b.drop (headerEnd + 4))
      else true

/- ---------------------------------------------------------------- -/
/- src/http/parser.rs: parse                                          -/
/- ---------------------------------------------------------------- -/

/-- The distinct `ServerError::Parse` sites of `RequestParser::parse`. -/
inductive ParseErr where
  | invalidUtf8
  | incompleteHeaders
  | missingRequestLine
  | missingMethod
  | invalidMethod
  | missingPath
  | missingVersion
deriving DecidableEq, Repr

/-- Folds header lines into the header map: a line is split at its first
`:` into trimmed name and value and appended; a line without `:` is
skipped. -/
def foldHeaderLines (ls : List Str) : Headers :=
  ls.foldl (fun hs line =>
    match findSubIdx [':'] line with
    | none => hs
    | some colonPos =>
      hs.add (rustTrim (line.take colonPos)) (rustTrim (line.drop (colonPos + 1)))) Headers.new

/-- The part of `RequestParser::parse` that runs on the decoded string:
the first CR LF CR LF (an ASCII pattern: its first char position equals
its first byte position in order) ends the header section; the request
line must yield three whitespace-separated tokens with a known method;
remaining header lines are folded; the body is the raw bytes after the
separator (`utf8Encode` of the decoded tail — identical to the byte tail,
since the separator lies on a character boundary). -/
def parseDecoded (cs : Str) : Except ParseErr Request :=
  match findSubIdx (str "\r\n\r\n") cs with
  | none => .error .incompleteHeaders
  | some headerEnd =>
    let headerSection := cs.take headerEnd
    match rustLines headerSection with
    | [] => .error .missingRequestLine
    | requestLine :: headerLines =>
      match splitWs requestLine with
      | [] => .error .missingMethod
      | methodTok :: rest1 =>
        match methodFromStr methodTok with
        | none => .error .invalidMethod
        | some method =>
          match rest1 with
          | [] => .error .missingPath
          | pathTok :: rest2 =>
            match rest2 with
            | [] => .error .missingVersion
            | versionTok :: _ =>
              let base := Request.new method pathTok
              let bodyStart := headerEnd + 4
              let body := if bodyStart < cs.length then utf8Encode (cs.drop bodyStart) else []
              .ok { base with version := versionTok,
                              headers := foldHeaderLines headerLines,
                              body := body }

/-- Rust `RequestParser::parse`: the whole buffer must decode as UTF-8,
then `parseDecoded` runs on the decoded string. -/
def parseRequest (b : List Nat) : Except ParseErr Request :=
  match utf8Decode b with
  | none => .error .invalidUtf8
  | some cs => parseDecoded cs

/- ---------------------------------------------------------------- -/
/- src/cgi/executor.rs: parse_cgi_output                              -/
/- ---------------------------------------------------------------- -/

/-- Processes one header line of CGI stdout, mirroring the match in
`parse_cgi_output`: a `Status` line replaces the status only when its
first whitespace token parses as u16 into the supported set; a
`Content-Type` line sets the header and the seen-flag; a `Location` line
sets the header and upgrades a still-200 status to 302; any other line
with a colon is set verbatim; a line without a colon is skipped. -/
def processCgiLine (acc : Response × Bool) (line : List Nat) : Response × Bool :=
  let resp := acc.1
  let hasCT := acc.2
  match findSubIdx [58] line with
  | none => acc
  | some colonPos =>
    let name := decodeD (bTrim (line.take colonPos))
    let value := decodeD (bTrim (line.drop (colonPos + 1)))
    let low := lowerStr name
    if low = str "status" then
      match (splitWs value).head? with
      | none => acc
      | some codeTok =>
        match parseU16 codeTok with
        | none => acc
        | some codeNum =>
          match StatusCode.fromCode codeNum with
          | none => acc
          | some st => ({ resp with status := st }, hasCT)
    else if low = str "content-type" then
      ({ resp with headers := resp.headers.set (str "Content-Type") value }, true)
    else if low = str "location" then
      let resp := { resp with headers := resp.headers.set (str "Location") value }
      if resp.status = .ok then ({ resp with status := .found }, hasCT)
      else (resp, hasCT)
    else
      ({ resp with headers := resp.headers.set name value }, hasCT)

/-- The header/body separator of CGI stdout: the first CR LF CR LF of the
lossily decoded stdout, else its first LF LF, with the separator length. -/
def cgiSep (out : List Nat) : Option (Nat × Nat) :=
  match findSubIdx crlfcrlfB (utf8Lossy out) with
  | some pos => some (pos, 4)
  | none =>
    match findSubIdx [10, 10] (utf8Lossy out) with
    | some pos => some (pos, 2)
    | none => none

/-- Rust `CgiExecutor::parse_cgi_output`.  The stdout is decoded lossily;
the header/body separator is looked up in the lossy string, but the body
is sliced from the raw stdout at the offset found there — `none` models
the Rust panic when that offset exceeds the raw length (the lossy string
can be longer than the input). -/
def parseCgiOutput (out : List Nat) : Option Response :=
  let s := utf8Lossy out
  match cgiSep out with
  | none => some (((Response.new .ok).contentType (str "text/html")).withBody out)
  | some (pos, sepLen) =>
    if out.length < pos + sepLen then none
    else
      let headersPart := s.take pos
      let body := out.drop (pos + sepLen)
      let folded := (rustLinesB headersPart).foldl processCgiLine (Response.new .ok, false)
      let resp := folded.1
      let resp :=
        if folded.2 then resp
        else { resp with headers := resp.headers.set (str "Content-Type") (str "text/html") }
      let resp := { resp with body := body }
      some { resp with
        headers := resp.headers.set (str "Content-Length") (natStr body.length) }

/- ---------------------------------------------------------------- -/
/- src/server/connection.rs                                           -/
/- ---------------------------------------------------------------- -/

/-- Connection states (`ConnectionState`). -/
inductive ConnState where
  | reading | processing | writing | closed
deriving DecidableEq, Repr

/-- A client connection (`Connection`): the stream itself is ambient (its
operation outcomes are inputs below); instants are modelled as naturals. -/
structure Connection where
  serverPort : Nat
  state : ConnState
  readBuffer : List Nat
  writeBuffer : List Nat
  bytesWritten : Nat
  createdAt : Nat
  lastActivity : Nat
  keepAlive : Bool
deriving DecidableEq, Repr

/-- Rust `Connection::new`. -/
def Connection.new (serverPort now : Nat) : Connection :=
  { serverPort := serverPort, state := .reading, readBuffer := [],
    writeBuffer := [], bytesWritten := 0, createdAt := now,
    lastActivity := now, keepAlive := true }

/-- Outcome of the non-blocking `stream.read` call: the bytes received
(`[]` meaning peer close), would-block, or another I/O error. -/
inductive ReadOutcome where
  | ok (bytes : List Nat)
  | wouldBlock
  | ioErr
deriving DecidableEq, Repr

/-- Rust `Connection::read`, as a function of the stream outcome and the
current instant.  `Except Unit Nat` stands for `Result<usize>` (the error
payload is irrelevant here). -/
def Connection.read (c : Connection) (o : ReadOutcome) (now : Nat) :
    Connection × Except Unit Nat :=
  match o with
  | .ok [] => ({ c with state := .closed }, .ok 0)
  | .ok bs =>
    ({ c with readBuffer := c.readBuffer ++ bs, lastActivity := now }, .ok bs.length)
  | .wouldBlock => (c, .ok 0)
  | .ioErr => ({ c with state := .closed }, .error ())

/-- Outcome of the non-blocking `stream.write` call: bytes accepted
(0 meaning peer close), would-block, or another I/O error. -/
inductive WriteOutcome where
  | ok (n : Nat)
  | wouldBlock
  | ioErr
deriving DecidableEq, Repr

/-- Rust `Connection::write`.  With everything already written it returns
0 untouched; `Ok(n)` advances the cursor, stamps activity, and on drain
resets to Reading (keep-alive) or transitions to Closed. -/
def Connection.write (c : Connection) (o : WriteOutcome) (now : Nat) :
    Connection × Except Unit Nat :=
  if c.bytesWritten ≥ c.writeBuffer.length then (c, .ok 0)
  else
    match o with
    | .ok 0 => ({ c with state := .closed }, .ok 0)
    | .ok n =>
      let c1 := { c with bytesWritten := c.bytesWritten + n, lastActivity := now }
      let c2 :=
        if c1.bytesWritten ≥ c1.writeBuffer.length then
          if c1.keepAlive then
            { c1 with readBuffer := [], writeBuffer := [], bytesWritten := 0,
                      state := .reading }
          else { c1 with state := .closed }
        else c1
      (c2, .ok n)
    | .wouldBlock => (c, .ok 0)
    | .ioErr => ({ c with state := .closed }, .error ())

/-- Rust `Connection::set_response`: load the serialized response, reset
the cursor, enter Writing, and recompute keep-alive from the response's
Connection header. -/
def Connection.setResponse (c : Connection) (resp : Response) : Connection :=
  { c with writeBuffer := resp.toBytes, bytesWritten := 0, state := .writing,
           keepAlive := resp.headers.keepAlive }

/-- Rust `Connection::is_write_complete`. -/
def Connection.isWriteComplete (c : Connection) : Bool :=
  c.bytesWritten ≥ c.writeBuffer.length

/- ---------------------------------------------------------------- -/
/- src/config/route.rs                                                -/
/- ---------------------------------------------------------------- -/

/-- A location-block route (`Route` in `src/config/route.rs`); the CGI
extension table (a Rust `HashMap`) is an association list. -/
structure Route where
  path : Str
  methods : List Method
  root : Option Str
  index : Option Str
  autoindex : Bool
  redirect : Option (Str × Bool)
  cgi : List (Str × Str)
  uploadDir : Option Str
deriving DecidableEq, Repr

/-- Rust `Route::new`. -/
def Route.new (path : Str) : Route :=
  { path := path, methods := [.get], root := none,
    index := some (str "index.html"), autoindex := false, redirect := none,
    cgi := [], uploadDir := none }

/-- Rust `Route::is_method_allowed`. -/
def Route.isMethodAllowed (r : Route) (m : Method) : Bool :=
  r.methods.contains m

/-- Rust `Route::matches`: the `/` route matches everything, any other
route matches by literal prefix. -/
def Route.matches (r : Route) (requestPath : Str) : Bool :=
  if r.path = str "/" then true
  else r.path.isPrefixOf requestPath

/-- Rust `str::strip_prefix`. -/
def stripPre (p s : Str) : Option Str :=
  if p.isPrefixOf s then some (s.drop p.length) else none

/-- Rust `Route::resolve_path_with_root`: with a custom route root the
route's path prefix is stripped and the remainder joined to it; otherwise
the whole request path is joined to the server root. -/
def Route.resolvePathWithRoot (r : Route) (requestPath serverRoot : Str) : Option Str :=
  match r.root with
  | some customRoot =>
    let relative :=
      if r.path = str "/" then requestPath
      else (stripPre r.path requestPath).getD requestPath
    let relative := trimStartMatches '/' relative
    if relative = [] then some customRoot
    else some (customRoot ++ str "/" ++ relative)
  | none =>
    let cleanPath := trimStartMatches '/' requestPath
    if cleanPath = [] then some serverRoot
    else some (serverRoot ++ str "/" ++ cleanPath)

/-- Rust `Route::get_cgi_handler`: first table entry whose extension is a
suffix of the path (the Rust `HashMap` iterates in unspecified order; the
model iterates in list order). -/
def Route.getCgiHandler (r : Route) (path : Str) : Option Str :=
  (r.cgi.find? (fun e => e.1.isSuffixOf path)).map (·.2)

/-- Rust `Route::has_redirect`. -/
def Route.hasRedirect (r : Route) : Bool := r.redirect.isSome

/- ---------------------------------------------------------------- -/
/- src/config/server_config.rs                                        -/
/- ---------------------------------------------------------------- -/

/-- A virtual-server configuration (`ServerConfig`); the error-page map is
an association list. -/
structure ServerConfig where
  serverName : Str
  host : Str
  ports : List Nat
  root : Str
  clientMaxBodySize : Nat
  errorPages : List (Nat × Str)
  routes : List Route
  timeout : Nat
deriving DecidableEq, Repr

/-- Rust `Iterator::max_by_key`: the last element with the maximal key. -/
def maxByKeyLast {α : Type} (f : α → Nat) (l : List α) : Option α :=
  l.foldl (fun acc x =>
    match acc with
    | none => some x
    | some m => if f x ≥ f m then some x else some m) none

/-- Rust `ServerConfig::find_route`: among this server's routes matching
the path, the one with the longest route path. -/
def ServerConfig.findRoute (s : ServerConfig) (path : Str) : Option Route :=
  maxByKeyLast (fun r => r.path.length) (s.routes.filter (fun r => r.matches path))

/-- Rust `ServerConfig::get_error_page`. -/
def ServerConfig.getErrorPage (s : ServerConfig) (code : Nat) : Option Str :=
  (s.errorPages.find? (fun e => e.1 = code)).map (·.2)

/- ---------------------------------------------------------------- -/
/- Ambient effects: filesystem, clock, CGI child                      -/
/- ---------------------------------------------------------------- -/

/-- One directory entry as observed through `fs::read_dir` (name, kind,
and `metadata().len()` with `none` for a failing metadata call). -/
structure DirEnt where
  name : Str
  isDir : Bool
  size : Option Nat
deriving DecidableEq, Repr

/-- The ambient filesystem and process state the handlers touch, as a
record of operation outcomes: `cgiRun interpreter script stdinBody` is the stdout
of a successfully spawned, successfully exiting child (`none` covering
spawn failure, stdin-write failure, wait failure and non-zero exit). -/
structure Fs where
  pathExists : Str → Bool
  isDir : Str → Bool
  isFile : Str → Bool
  readFile : Str → Option (List Nat)
  removeFile : Str → Bool
  writeFile : Str → List Nat → Bool
  createDirAll : Str → Bool
  readDir : Str → Option (List DirEnt)
  cgiRun : Str → Str → List Nat → Option (List Nat)

/-- The `ServerError` outcomes the embedded handlers distinguish;
`crash` marks a Rust panic propagating out of a callee. -/
inductive ServErr where
  | ioErr
  | notFound
  | forbidden
  | cgiErr
  | crash
deriving DecidableEq, Repr

/-- Rust `Path::join` for the relative components this program joins
(an absolute component replaces the base, as in Rust). -/
def pathJoin (base component : Str) : Str :=
  if component.head? = some '/' then component
  else if base = [] then component
  else if base.getLast? = some '/' then base ++ component
  else base ++ str "/" ++ component

/- ---------------------------------------------------------------- -/
/- src/router/static_files.rs                                         -/
/- ---------------------------------------------------------------- -/

/-- Rust `StaticFiles::is_safe_path`: rejects paths containing `..` or a
NUL byte. -/
def isSafePath (p : Str) : Bool :=
  if containsSub (str "..") p then false
  else if containsSub [Char.ofNat 0] p then false
  else true

/-- Rust `StaticFiles::serve`: safety check, existence, regular-file
check, then a 200 response with MIME-typed contents; a read failure is an
I/O error. -/
def StaticFiles.serve (fs : Fs) (filePath : Str) : Except ServErr Response :=
  if !isSafePath filePath then .error .forbidden
  else if !fs.pathExists filePath then .error .notFound
  else if !fs.isFile filePath then .error .notFound
  else
    match fs.readFile filePath with
    | none => .error .ioErr
    | some contents =>
      .ok (((Response.new .ok).contentType (mimeType filePath)).withBody contents)

/- ---------------------------------------------------------------- -/
/- src/router/redirect.rs                                             -/
/- ---------------------------------------------------------------- -/

/-- Rust `Redirect::to`: 301 or 302 with Location and a small HTML body. -/
def Redirect.to (location : Str) (permanent : Bool) : Response :=
  let status : StatusCode := if permanent then .movedPermanently else .found
  let response := Response.new status
  let response := { response with headers := response.headers.set (str "Location") location }
  let html :=
    str "<!DOCTYPE html>\n<html>\n<head>\n<title>Redirect</title>\n<meta http-equiv=\"refresh\" content=\"0; url=" ++
    location ++ str "\">\n</head>\n<body>\n<h1>" ++ natStr status.code ++ str " " ++
    status.reason ++ str "</h1>\n<p>Redirecting to <a href=\"" ++ location ++
    str "\">" ++ location ++ str "</a></p>\n</body>\n</html>"
  response.html html

/- ---------------------------------------------------------------- -/
/- src/router/directory.rs                                            -/
/- ---------------------------------------------------------------- -/

/-- Inserts `x` after every element `y` with `le y x` (so that a stable
sort results from folding the input in order). -/
def insertAfterEq {α : Type} (le : α → α → Bool) (x : α) : List α → List α
  | [] => [x]
  | y :: ys => if le y x then y :: insertAfterEq le x ys else x :: y :: ys

/-- Stable sort by a boolean `≤`, equivalent to Rust's stable
`slice::sort_by`. -/
def stableSortBy {α : Type} (le : α → α → Bool) (l : List α) : List α :=
  l.foldl (fun acc x => insertAfterEq le x acc) []

/-- Lexicographic `≤` on lists of naturals. -/
def natListLe : List Nat → List Nat → Bool
  | [], _ => true
  | _ :: _, [] => false
  | x :: xs, y :: ys => if x < y then true else if y < x then false else natListLe xs ys

/-- Lexicographic comparison of names by scalar value (Rust `OsString`
comparison is bytewise; UTF-8 byte order equals code-point order). -/
def strLe (a b : Str) : Bool :=
  natListLe (a.map Char.toNat) (b.map Char.toNat)

/-- The directory-listing order: directories first, then by name
(`Ordering::Less` exactly when the comparator says so or ties). -/
def dirEntLe (a b : DirEnt) : Bool :=
  match a.isDir, b.isDir with
  | true, false => true
  | false, true => false
  | _, _ => strLe a.name b.name

/-- Rust `DirectoryListing::format_size` (1024-based, one decimal).  The
f64 division and `{:.1}` formatting are modelled by exact rational
rounding-half-to-even at the tenths digit. -/
def formatSize (size : Nat) : Str :=
  let kb := 1024
  let mb := kb * 1024
  let gb := mb * 1024
  let fmt1 := fun (divisor : Nat) =>
    let n10 := size * 10
    let q := n10 / divisor
    let r := n10 % divisor
    let t := if 2 * r > divisor then q + 1
             else if 2 * r < divisor then q
             else if q % 2 = 0 then q else q + 1
    natStr (t / 10) ++ str "." ++ natStr (t % 10)
  if size ≥ gb then fmt1 gb ++ str " GB"
  else if size ≥ mb then fmt1 mb ++ str " MB"
  else if size ≥ kb then fmt1 kb ++ str " KB"
  else natStr size ++ str " B"

/-- Rust `DirectoryListing::parent_path`. -/
def parentPath (path : Str) : Str :=
  let trimmed := trimEndMatchesElem '/' path
  match rfindIdx '/' trimmed with
  | some pos => if pos > 0 then trimmed.take pos else str "/"
  | none => str "/"

/-- The style block of the listing page. -/
def listingCss : Str :=
  str "<style>\nbody \x7b font-family: sans-serif; margin: 20px; \x7d\nh1 \x7b border-bottom: 1px solid #ccc; padding-bottom: 10px; \x7d\ntable \x7b border-collapse: collapse; width: 100%; \x7d\nth, td \x7b text-align: left; padding: 8px; border-bottom: 1px solid #ddd; \x7d\ntr:hover \x7b background-color: #f5f5f5; \x7d\na \x7b text-decoration: none; color: #0066cc; \x7d\na:hover \x7b text-decoration: underline; \x7d\n.dir \x7b font-weight: bold; \x7d\n.size \x7b color: #666; \x7d\n</style>\n"

/-- One row of the listing table. -/
def listingRow (requestPath : Str) (e : DirEnt) : Str :=
  let href :=
    if requestPath.getLast? = some '/' then requestPath ++ e.name
    else requestPath ++ str "/" ++ e.name
  let sizeStr := if e.isDir then str "-" else (e.size.map formatSize).getD (str "-")
  let typeStr := if e.isDir then str "Directory" else str "File"
  let cls := if e.isDir then str " class=\"dir\"" else str ""
  let displayName := if e.isDir then e.name ++ str "/" else e.name
  str "<tr><td" ++ cls ++ str "><a href=\"" ++ href ++ str "\">" ++ displayName ++
  str "</a></td><td class=\"size\">" ++ sizeStr ++ str "</td><td>" ++ typeStr ++
  str "</td></tr>\n"

/-- Rust `DirectoryListing::generate`. -/
def DirectoryListing.generate (fs : Fs) (dirPath requestPath : Str) : Response :=
  if !fs.isDir dirPath then (Response.new .notFound).html (str "<h1>404 Not Found</h1>")
  else
    match fs.readDir dirPath with
    | none => (Response.new .forbidden).html (str "<h1>403 Forbidden</h1>")
    | some entries =>
      let head :=
        str "<!DOCTYPE html>\n<html>\n<head>\n<meta charset=\"utf-8\">\n<title>Index of " ++
        requestPath ++ str "</title>\n" ++ listingCss ++
        str "</head>\n<body>\n<h1>Index of " ++ requestPath ++ str "</h1>\n" ++
        str "<table>\n<tr><th>Name</th><th>Size</th><th>Type</th></tr>\n"
      let parentRow :=
        if requestPath ≠ str "/" then
          str "<tr><td class=\"dir\"><a href=\"" ++ parentPath requestPath ++
          str "\">..</a></td><td>-</td><td>Directory</td></tr>\n"
        else str ""
      let items := stableSortBy dirEntLe entries
      let rows := (items.map (listingRow requestPath)).flatten
      (Response.new .ok).html
        (head ++ parentRow ++ rows ++ str "</table>\n<hr>\n<p><em>localhost server</em></p>\n</body>\n</html>")

/- ---------------------------------------------------------------- -/
/- src/cgi/executor.rs: execute                                       -/
/- ---------------------------------------------------------------- -/

/-- Rust `CgiExecutor::execute` with the child process abstracted by
`fs.cgiRun` (the environment built by `build_env` and the body piped to
stdin reach the child; the oracle receives interpreter, script and body):
missing script is NotFound; a failed spawn, stdin write, wait or non-zero
exit is a Cgi error; otherwise the stdout is parsed (a parse panic
propagates as `crash`). -/
def CgiExecutor.execute (fs : Fs) (request : Request)
    (scriptPath interpreter : Str) : Except ServErr Response :=
  if !fs.pathExists scriptPath then .error .notFound
  else
    match fs.cgiRun interpreter scriptPath request.body with
    | none => .error .cgiErr
    | some stdout =>
      match parseCgiOutput stdout with
      | none => .error .crash
      | some r => .ok r

/- ---------------------------------------------------------------- -/
/- src/router/handler.rs                                              -/
/- ---------------------------------------------------------------- -/

/-- The table of default error pages chosen in `Handler::error_response`. -/
def defaultErrorBase (code : Nat) : Response × Str :=
  match code with
  | 400 => (Response.new .badRequest, str "Bad Request")
  | 403 => (Response.new .forbidden, str "Forbidden")
  | 404 => (Response.new .notFound, str "Not Found")
  | 405 => (Response.new .methodNotAllowed, str "Method Not Allowed")
  | 413 => (Response.new .payloadTooLarge, str "Payload Too Large")
  | _ => (Response.new .internalServerError, str "Internal Server Error")

/-- Rust `Handler::error_response`: a configured error page that resolves
and reads is served with the requested status; otherwise the built-in
minimal HTML page. -/
def errorResponse (fs : Fs) (server : ServerConfig) (code : Nat) : Response :=
  let custom : Option Response :=
    match server.getErrorPage code with
    | some errorPage =>
      let errorPath := server.root ++ str "/" ++ trimStartMatches '/' errorPage
      match StaticFiles.serve fs errorPath with
      | .ok r => some { r with status := (StatusCode.fromCode code).getD .internalServerError }
      | .error _ => none
    | none => none
  match custom with
  | some r => r
  | none =>
    let pair := defaultErrorBase code
    pair.1.html
      (str "<!DOCTYPE html>\n<html>\n<head><title>" ++ natStr code ++ str " " ++
       pair.2 ++ str "</title></head>\n<body>\n<h1>" ++ natStr code ++ str " " ++
       pair.2 ++ str "</h1>\n</body>\n</html>")

/-- Rust `Handler::handle_get`: directories try the index file (any serve
failure there is a 500), then autoindex, then 403; files are served
statically with the body stripped for HEAD, NotFound mapping to 404,
Forbidden to 403 and anything else to 500. -/
def handleGet (fs : Fs) (request : Request) (filePath : Str) (autoindex : Bool)
    (index : Option Str) (server : ServerConfig) : Response :=
  if fs.isDir filePath then
    let served : Option Response :=
      match index with
      | some indexFile =>
        let indexPath := pathJoin filePath indexFile
        if fs.pathExists indexPath && fs.isFile indexPath then
          match StaticFiles.serve fs indexPath with
          | .ok r => some r
          | .error _ => some (errorResponse fs server 500)
        else none
      | none => none
    match served with
    | some r => r
    | none =>
      if autoindex then DirectoryListing.generate fs filePath request.path
      else errorResponse fs server 403
  else
    match StaticFiles.serve fs filePath with
    | .ok r => if request.method = .head then { r with body := [] } else r
    | .error .notFound => errorResponse fs server 404
    | .error .forbidden => errorResponse fs server 403
    | .error _ => errorResponse fs server 500

/-- Rust `Handler::extract_filename`: the first line mentioning
content-disposition (case-insensitively) from which a quoted
`filename="..."` attribute can be cut. -/
def extractFilename (part : Str) : Option Str :=
  (rustLines part).findSome? (fun line =>
    if containsSub (str "content-disposition") (lowerStr line) then
      match findSubIdx (str "filename=\"") line with
      | some start =>
        let rest := line.drop (start + 10)
        match findSubIdx [Char.ofNat 34] rest with
        | some e => some (rest.take e)
        | none => none
      | none => none
    else none)

/-- Debug escaping of one character as in Rust's `{:?}` for strings,
modelled on the escapes that can arise here (quote, backslash, newline,
carriage return, tab, NUL). -/
def escapeDebugChar (c : Char) : Str :=
  if c.toNat = 34 then str "\\\""
  else if c.toNat = 92 then str "\\\\"
  else if c = '\n' then str "\\n"
  else if c = '\r' then str "\\r"
  else if c = '\t' then str "\\t"
  else if c.toNat = 0 then str "\\0"
  else [c]

/-- Rust `{:?}` of a `Vec<String>`. -/
def debugVecStr (xs : List Str) : Str :=
  let quoted := xs.map (fun s => str "\"" ++ (s.map escapeDebugChar).flatten ++ str "\"")
  str "[" ++ (List.intersperse (str ", ") quoted).flatten ++ str "]"

/-- Rust `Handler::handle_multipart_upload`: boundary from the
Content-Type (quotes trimmed); a non-UTF-8 body is a 400; parts split on
`--boundary`; for each part with a filename and a CR LF CR LF separator,
the content (with one trailing CR LF run trimmed) is written; 400 when
nothing was written, else a 200 JSON list. -/
def handleMultipart (fs : Fs) (request : Request) (uploadPath : Str)
    (server : ServerConfig) : Response :=
  let contentType := (request.contentType).getD []
  let boundaryRaw := ((splitOnList (str "boundary=") contentType).get? 1).map
    (trimMatchesElem (Char.ofNat 34))
  match boundaryRaw with
  | none => errorResponse fs server 400
  | some b =>
    let boundary := str "--" ++ b
    match utf8Decode request.body with
    | none => errorResponse fs server 400
    | some body =>
      let uploaded := (splitOnList boundary body).foldl (fun acc part =>
        if rustTrim part = [] ∨ rustTrim part = str "--" then acc
        else
          match extractFilename part with
          | none => acc
          | some filename =>
            match findSubIdx (str "\r\n\r\n") part with
            | none => acc
            | some contentStart =>
              let content := part.drop (contentStart + 4)
              let content := trimEndMatchesList (str "\r\n") content
              let targetPath := pathJoin uploadPath filename
              if fs.writeFile targetPath (utf8Encode content) then acc ++ [filename]
              else acc) []
      if uploaded = [] then errorResponse fs server 400
      else (Response.new .ok).json
        (str "\x7b\"status\":\"ok\",\"files\":" ++ debugVecStr uploaded ++ str "\x7d")

/-- Rust `Handler::handle_post`: requires an upload directory (403), whose
recursive creation must succeed (500); multipart bodies are dispatched,
anything else is written raw to `upload_<unix-seconds>`.  The resolved
`file_path` argument is received but unused, as in the source. -/
def handlePost (fs : Fs) (request : Request) (_filePath : Str)
    (uploadDir : Option Str) (server : ServerConfig) (now : Nat) : Response :=
  match uploadDir with
  | none => errorResponse fs server 403
  | some uploadPath =>
    if !fs.createDirAll uploadPath then errorResponse fs server 500
    else
      let contentType := (request.contentType).getD []
      if (str "multipart/form-data").isPrefixOf contentType then
        handleMultipart fs request uploadPath server
      else
        let filename := str "upload_" ++ natStr now
        let targetPath := pathJoin uploadPath filename
        if fs.writeFile targetPath request.body then
          (Response.new .ok).json
            (str "\x7b\"status\":\"ok\",\"file\":\"" ++ filename ++ str "\"\x7d")
        else errorResponse fs server 500

/-- Rust `Handler::handle_delete`: 404 if the path does not exist, 403 for
directories, 200 JSON after a successful removal, 500 otherwise.  The
resolved path is handed to the filesystem without any safety check. -/
def handleDelete (fs : Fs) (filePath : Str) (server : ServerConfig) : Response :=
  if !fs.pathExists filePath then errorResponse fs server 404
  else if fs.isDir filePath then errorResponse fs server 403
  else if fs.removeFile filePath then
    (Response.new .ok).json (str "\x7b\"status\":\"ok\",\"message\":\"File deleted\"\x7d")
  else errorResponse fs server 500

/-- Rust `Handler::handle_cgi` (`none` models a panic in the callee). -/
def handleCgi (fs : Fs) (request : Request) (scriptPath interpreter : Str)
    (server : ServerConfig) : Option Response :=
  match CgiExecutor.execute fs request scriptPath interpreter with
  | .ok r => some r
  | .error .crash => none
  | .error _ => some (errorResponse fs server 500)

/-- Rust `Handler::handle`: route match (404), method gate (405),
redirect, path resolution, CGI dispatch on extension, then per-method
dispatch.  `none` models a panic propagating from CGI output parsing. -/
def handleRequest (fs : Fs) (server : ServerConfig) (request : Request)
    (now : Nat) : Option Response :=
  match server.findRoute request.path with
  | none => some (errorResponse fs server 404)
  | some route =>
    if !route.isMethodAllowed request.method then some (errorResponse fs server 405)
    else
      match route.redirect with
      | some rd => some (Redirect.to rd.1 rd.2)
      | none =>
        match route.resolvePathWithRoot request.path server.root with
        | none => some (errorResponse fs server 404)
        | some filePath =>
          match route.getCgiHandler filePath with
          | some interpreter => handleCgi fs request filePath interpreter server
          | none =>
            match request.method with
            | .get | .head =>
              some (handleGet fs request filePath route.autoindex route.index server)
            | .post => some (handlePost fs request filePath route.uploadDir server now)
            | .delete => some (handleDelete fs filePath server)
            | _ => some (errorResponse fs server 405)

/- ---------------------------------------------------------------- -/
/- General lemmas about the embedded structures                       -/
/- ---------------------------------------------------------------- -/

theorem find?_setEntry (k : Str) (vs : List Str) (es : List (Str × List Str)) :
    (setEntry k vs es).find? (fun e => e.1 = k) = some (k, vs) := by
  induction es with
  | nil => simp [setEntry]
  | cons e rest ih =>
    by_cases h : e.1 = k
    · simp [setEntry, h]
    · simp [setEntry, h, ih]

theorem find?_setEntry_ne (k k2 : Str) (vs : List Str) (es : List (Str × List Str))
    (h : k2 ≠ k) :
    (setEntry k vs es).find? (fun e => e.1 = k2) = es.find? (fun e => e.1 = k2) := by
  induction es with
  | nil => simp [setEntry, Ne.symm h]
  | cons e rest ih =>
    rw [setEntry]
    by_cases he : e.1 = k
    · rw [if_pos he]
      rw [List.find?_cons_of_neg _ (by simp [Ne.symm h]),
        List.find?_cons_of_neg _ (by rw [he]; simp [Ne.symm h])]
    · rw [if_neg he]
      by_cases he2 : e.1 = k2
      · rw [List.find?_cons_of_pos _ (by simp [he2]),
          List.find?_cons_of_pos _ (by simp [he2])]
      · rw [List.find?_cons_of_neg _ (by simp [he2]),
          List.find?_cons_of_neg _ (by simp [he2]), ih]

theorem Headers.get_set_eq (h : Headers) (n v m : Str) (hm : lowerStr m = lowerStr n) :
    (h.set n v).get m = some v := by
  unfold Headers.get Headers.lookupKey Headers.set
  rw [hm]
  simp [find?_setEntry]

theorem Headers.get_set_ne (h : Headers) (n v m : Str) (hm : lowerStr m ≠ lowerStr n) :
    (h.set n v).get m = h.get m := by
  unfold Headers.get Headers.lookupKey Headers.set
  rw [find?_setEntry_ne _ _ _ _ hm]

theorem qGet_qInsert (m : List (Str × Str)) (k v k2 : Str) :
    qGet (qInsert k v m) k2 = if k2 = k then some v else qGet m k2 := by
  induction m with
  | nil =>
    by_cases h : k2 = k
    · subst h; simp [qInsert, qGet]
    · simp [qInsert, qGet, h, Ne.symm h]
  | cons e rest ih =>
    rw [qInsert]
    by_cases he : e.1 = k
    · rw [if_pos he]
      by_cases h : k2 = k
      · subst h
        unfold qGet
        rw [List.find?_cons_of_pos _ (by simp), if_pos rfl]
        rfl
      · unfold qGet
        rw [List.find?_cons_of_neg _ (by simp [Ne.symm h]),
          List.find?_cons_of_neg _ (by rw [he]; simp [Ne.symm h]), if_neg h]
    · rw [if_neg he]
      by_cases he2 : e.1 = k2
      · have h : ¬ k2 = k := fun hk => he (he2.trans hk)
        unfold qGet
        rw [List.find?_cons_of_pos _ (by simp [he2]), if_neg h,
          List.find?_cons_of_pos _ (by simp [he2])]
      · unfold qGet at ih ⊢
        rw [List.find?_cons_of_neg _ (by simp [he2]),
          List.find?_cons_of_neg _ (by simp [he2])]
        exact ih

theorem foldMax_spec {α : Type} (f : α → Nat) (l : List α) :
    ∀ (acc : Option α) (x : α),
      l.foldl (fun acc x =>
        match acc with
        | none => some x
        | some m => if f x ≥ f m then some x else some m) acc = some x →
      (x ∈ l ∨ acc = some x) ∧ (∀ y ∈ l, f y ≤ f x) ∧
      (∀ a, acc = some a → f a ≤ f x) := by
  induction l with
  | nil =>
    intro acc x h
    simp only [List.foldl_nil] at h
    refine ⟨Or.inr h, by simp, ?_⟩
    intro a ha
    rw [h] at ha
    cases ha
    exact Nat.le_refl _
  | cons z l ih =>
    intro acc x h
    rw [List.foldl_cons] at h
    obtain ⟨hmem, hbound, hacc⟩ := ih _ x h
    refine ⟨?_, ?_, ?_⟩
    · rcases hmem with hx | hx
      · exact Or.inl (List.mem_cons_of_mem _ hx)
      · cases acc with
        | none =>
          simp only at hx
          cases hx
          exact Or.inl (List.mem_cons_self _ _)
        | some m =>
          by_cases hc : f z ≥ f m
          · simp only [hc, if_pos] at hx
            cases hx
            exact Or.inl (List.mem_cons_self _ _)
          · simp only [hc, if_neg, not_false_iff] at hx
            cases hx
            exact Or.inr rfl
    · intro y hy
      rcases List.mem_cons.mp hy with rfl | hy'
      · cases acc with
        | none => exact hacc y rfl
        | some m =>
          by_cases hc : f y ≥ f m
          · exact hacc y (by simp [hc])
          · have hm := hacc m (by simp [hc])
            omega
      · exact hbound y hy'
    · intro a ha
      cases acc with
      | none => cases ha
      | some m =>
        cases ha
        by_cases hc : f z ≥ f a
        · have hz := hacc z (by simp [hc])
          omega
        · exact hacc a (by simp [hc])

theorem maxByKeyLast_spec {α : Type} (f : α → Nat) (l : List α) (x : α)
    (h : maxByKeyLast f l = some x) : x ∈ l ∧ ∀ y ∈ l, f y ≤ f x := by
  obtain ⟨hm, hb, _⟩ := foldMax_spec f l none x h
  rcases hm with hx | hx
  · exact ⟨hx, hb⟩
  · cases hx

theorem foldMax_some {α : Type} (f : α → Nat) :
    ∀ (l : List α) (m : α),
      (l.foldl (fun acc x =>
        match acc with
        | none => some x
        | some m => if f x ≥ f m then some x else some m) (some m)).isSome := by
  intro l
  induction l with
  | nil => intro m; simp
  | cons z l ih =>
    intro m
    rw [List.foldl_cons]
    by_cases hc : f z ≥ f m
    · simpa [hc] using ih z
    · simpa [hc] using ih m

theorem maxByKeyLast_isSome {α : Type} (f : α → Nat) (l : List α) (h : l ≠ []) :
    (maxByKeyLast f l).isSome := by
  cases l with
  | nil => exact absurd rfl h
  | cons z l =>
    unfold maxByKeyLast
    rw [List.foldl_cons]
    exact foldMax_some f l z

theorem utf8Encode_append (a b : Str) :
    utf8Encode (a ++ b) = utf8Encode a ++ utf8Encode b := by
  simp [utf8Encode]

theorem utf8Encode_flatten (l : List Str) :
    utf8Encode l.flatten = (l.map utf8Encode).flatten := by
  induction l with
  | nil => simp [utf8Encode]
  | cons x l ih => simp [utf8Encode_append, ih]

theorem parseDecoded_ne_utf8 (cs : Str) : parseDecoded cs ≠ .error .invalidUtf8 := by
  intro h
  unfold parseDecoded at h
  split at h
  · simp at h
  · dsimp only at h
    split at h
    · simp at h
    · split at h
      · simp at h
      · split at h
        · simp at h
        · split at h
          · simp at h
          · split at h
            · simp at h
            · simp at h

theorem parseDecoded_err_cases (cs : Str) (e : ParseErr)
    (hh : findSubIdx (str "\r\n\r\n") cs ≠ none)
    (h : parseDecoded cs = .error e) :
    e = .missingRequestLine ∨ e = .missingMethod ∨ e = .invalidMethod ∨
    e = .missingPath ∨ e = .missingVersion := by
  unfold parseDecoded at h
  split at h
  · exact absurd (by assumption) hh
  · dsimp only at h
    split at h
    · injection h with h2
      exact Or.inl h2.symm
    · split at h
      · injection h with h2
        exact Or.inr (Or.inl h2.symm)
      · split at h
        · injection h with h2
          exact Or.inr (Or.inr (Or.inl h2.symm))
        · split at h
          · injection h with h2
            exact Or.inr (Or.inr (Or.inr (Or.inl h2.symm)))
          · split at h
            · injection h with h2
              exact Or.inr (Or.inr (Or.inr (Or.inr h2.symm)))
            · simp at h

/-- Whether a CGI header line names Content-Type: it has a colon and its
trimmed, lowercased name reads `content-type`. -/
def isCTLineB (line : List Nat) : Bool :=
  match findSubIdx [58] line with
  | none => false
  | some colonPos =>
    decide (lowerStr (decodeD (bTrim (line.take colonPos))) = str "content-type")

theorem processCgiLine_flag (acc : Response × Bool) (line : List Nat) :
    (processCgiLine acc line).2 = (acc.2 || isCTLineB line) := by
  unfold processCgiLine isCTLineB
  split
  · simp
  · rename_i colonPos heq
    by_cases h1 : lowerStr (decodeD (bTrim (line.take colonPos))) = str "status"
    · rw [if_pos h1]
      have h2 : ¬ lowerStr (decodeD (bTrim (line.take colonPos))) = str "content-type" := by
        rw [h1]; decide
      rw [decide_eq_false h2, Bool.or_false]
      split
      · rfl
      · split
        · rfl
        · split
          · rfl
          · rfl
    · rw [if_neg h1]
      by_cases h2 : lowerStr (decodeD (bTrim (line.take colonPos))) = str "content-type"
      · rw [if_pos h2, decide_eq_true h2]
        simp
      · rw [if_neg h2, decide_eq_false h2, Bool.or_false]
        by_cases h3 : lowerStr (decodeD (bTrim (line.take colonPos))) = str "location"
        · rw [if_pos h3]
          dsimp only
          split
          · rfl
          · rfl
        · rw [if_neg h3]

theorem foldCgi_flag (ls : List (List Nat)) (acc : Response × Bool) :
    (ls.foldl processCgiLine acc).2 = (acc.2 || ls.any isCTLineB) := by
  induction ls generalizing acc with
  | nil => simp
  | cons l ls ih =>
    rw [List.foldl_cons, ih, processCgiLine_flag]
    simp [Bool.or_assoc]

theorem Response.status_html (r : Response) (s : Str) : (r.html s).status = r.status := rfl

theorem Response.status_withBody (r : Response) (b : List Nat) :
    (r.withBody b).status = r.status := rfl

theorem errorResponse_404_status (fs : Fs) (server : ServerConfig) :
    (errorResponse fs server 404).status = .notFound := by
  unfold errorResponse
  cases hp : server.getErrorPage 404 with
  | none => rfl
  | some page =>
    dsimp only
    cases hs : StaticFiles.serve fs (server.root ++ str "/" ++ trimStartMatches '/' page) with
    | ok r => rfl
    | error e => rfl

/- ---------------------------------------------------------------- -/
/- Claim theorems                                                     -/
/- ---------------------------------------------------------------- -/

/-- A filesystem on which every operation fails (used as a neutral
instantiation). -/
def trivialFs : Fs :=
  { pathExists := fun _ => false, isDir := fun _ => false,
    isFile := fun _ => false, readFile := fun _ => none,
    removeFile := fun _ => false, writeFile := fun _ _ => false,
    createDirAll := fun _ => false, readDir := fun _ => none,
    cgiRun := fun _ _ _ => none }

/-- A filesystem in which exactly the traversal target
`www/../secret.txt` exists, as a regular file whose removal succeeds. -/
def c1Fs : Fs :=
  { pathExists := fun p => p = str "www/../secret.txt",
    isDir := fun _ => false,
    isFile := fun p => p = str "www/../secret.txt",
    readFile := fun _ => none,
    removeFile := fun p => p = str "www/../secret.txt",
    writeFile := fun _ _ => false,
    createDirAll := fun _ => false,
    readDir := fun _ => none,
    cgiRun := fun _ _ _ => none }

/-- A `/` route that allows DELETE and has no custom root. -/
def c1Route : Route := { Route.new (str "/") with methods := [.delete] }

/-- A server rooted at `www` carrying only `c1Route`. -/
def c1Server : ServerConfig :=
  { serverName := str "localhost", host := str "127.0.0.1", ports := [8080],
    root := str "www", clientMaxBodySize := 10485760, errorPages := [],
    routes := [c1Route], timeout := 60 }

/-- The request `DELETE /../secret.txt`. -/
def c1Req : Request := Request.new .delete (str "/../secret.txt")

/-- C1: the claim fails on the code.  For the request `DELETE
/../secret.txt` the router resolves the filesystem path
`www/../secret.txt` — which contains `..` — hands it to the filesystem
(exists / is-dir / remove-file) without any safety check, and answers 200
with the deletion body instead of the 403 the claim requires:
`Handler::handle_delete` never applies `StaticFiles::is_safe_path`. -/
theorem c1_delete_traversal :
    c1Req.path = str "/../secret.txt" ∧
    c1Server.findRoute c1Req.path = some c1Route ∧
    c1Route.resolvePathWithRoot c1Req.path c1Server.root =
      some (str "www/../secret.txt") ∧
    containsSub (str "..") (str "www/../secret.txt") = true ∧
    c1Fs.removeFile (str "www/../secret.txt") = true ∧
    handleRequest c1Fs c1Server c1Req 0 =
      some ((Response.new .ok).json
        (str "\x7b\"status\":\"ok\",\"message\":\"File deleted\"\x7d")) ∧
    ((Response.new .ok).json
      (str "\x7b\"status\":\"ok\",\"message\":\"File deleted\"\x7d")).status = .ok := by
  decide

/-- The C2 counterexample buffer: a complete header section carrying
`Content-Length: 0`, followed by one invalid UTF-8 byte of body. -/
def c2Bad : List Nat := bstr "GET / HTTP/1.1\r\nContent-Length: 0\r\n\r\n" ++ [255]

/-- C2 counterexample: `c2Bad` contains CR LF CR LF (header end 33), a
Content-Length value 0 is present, and the buffer holds at least
33 + 4 + 0 bytes, so the claim says `is_complete` is true — but the code
returns false, because `has_complete_headers` demands the whole buffer
(body included) to be valid UTF-8. -/
theorem c2_counterexample :
    containsSub crlfcrlfB c2Bad = true ∧
    findSubIdx crlfcrlfB c2Bad = some 33 ∧
    specContentLength c2Bad = some 0 ∧
    decide (c2Bad.length ≥ 33 + 4 + 0) = true ∧
    specIsComplete c2Bad = true ∧
    isComplete c2Bad = false := by
  decide

/-- C2 (amended): for buffers that are valid UTF-8, `is_complete` agrees
exactly with the claim's completeness formula, in which the
Content-Length comparison uses the wrapping `usize` sum
(header-end + 4 + Content-Length) mod 2^64 of the release build; a buffer
that is not valid UTF-8, or has no CR LF CR LF, is never complete. -/
theorem c2_complete_spec (b : List Nat) :
    (isValidUtf8 b = true → isComplete b = specIsComplete b) ∧
    (isValidUtf8 b = false ∨ containsSub crlfcrlfB b = false →
      isComplete b = false) := by
  constructor
  · intro hv
    unfold isComplete hasCompleteHeaders getContentLength isChunkedBuf
      specIsComplete specContentLength specChunked
    rw [hv]
    cases hf : findSubIdx crlfcrlfB b with
    | none => simp [containsSub, hf]
    | some headerEnd => simp [containsSub, hf]
  · intro hv
    rcases hv with hv | hv
    · unfold isComplete hasCompleteHeaders
      rw [hv]
      simp
    · unfold isComplete hasCompleteHeaders
      rw [hv]
      simp

/-- A 56-byte valid-UTF-8 buffer whose Content-Length is `usize::MAX`:
the release build computes `56 + 18446744073709551615` wrapping to 55, so
`is_complete` answers true although the unbounded sum exceeds the length. -/
def c2Wrap : List Nat :=
  bstr "GET / HTTP/1.1\r\nContent-Length: 18446744073709551615\r\n\r\n"

/-- Witness for `c2_complete_spec` at concrete buffers, including the
wrapping-overflow one. -/
theorem c2_complete_spec_witness :
    isComplete (bstr "GET / HTTP/1.1\r\n\r\n") =
      specIsComplete (bstr "GET / HTTP/1.1\r\n\r\n") ∧
    isComplete c2Wrap = specIsComplete c2Wrap ∧
    isComplete c2Wrap = true ∧
    isComplete (bstr "GET /") = false :=
  ⟨(c2_complete_spec (bstr "GET / HTTP/1.1\r\n\r\n")).1 (by decide),
   (c2_complete_spec c2Wrap).1 (by decide),
   by decide,
   (c2_complete_spec (bstr "GET /")).2 (Or.inr (by decide))⟩

/-- The C3 counterexample buffer: a valid, well-formed header section
followed by one invalid UTF-8 body byte. -/
def c3Bad : List Nat := bstr "GET / HTTP/1.1\r\n\r\n" ++ [255]

/-- C3 counterexample: the bytes up to and including the header end (the
first 18 bytes) are valid UTF-8 and themselves parse successfully, yet
`parse` of the whole buffer fails with the encoding Parse error, because
the code checks UTF-8 validity of the entire buffer, body included. -/
theorem c3_counterexample :
    c3Bad.take 18 = bstr "GET / HTTP/1.1\r\n\r\n" ∧
    isValidUtf8 (c3Bad.take 18) = true ∧
    (parseRequest (c3Bad.take 18)).isOk = true ∧
    parseRequest c3Bad = .error .invalidUtf8 := by
  decide

/-- C3 (amended): `parse` fails with the encoding error exactly when the
whole buffer is not valid UTF-8; and every buffer that decodes, contains
CR LF CR LF, and whose request line has three whitespace-separated tokens
with a known method, parses successfully. -/
theorem c3_parse_utf8 (b : List Nat) :
    (parseRequest b = .error .invalidUtf8 ↔ isValidUtf8 b = false) ∧
    (∀ cs headerEnd requestLine headerLines methodTok pathTok versionTok restToks m,
      utf8Decode b = some cs →
      findSubIdx (str "\r\n\r\n") cs = some headerEnd →
      rustLines (cs.take headerEnd) = requestLine :: headerLines →
      splitWs requestLine = methodTok :: pathTok :: versionTok :: restToks →
      methodFromStr methodTok = some m →
      (parseRequest b).isOk = true) := by
  constructor
  · constructor
    · intro h
      cases hd : utf8Decode b with
      | none => simp [isValidUtf8, hd]
      | some cs =>
        unfold parseRequest at h
        rw [hd] at h
        exact absurd h (parseDecoded_ne_utf8 cs)
    · intro h
      have hd : utf8Decode b = none := by
        cases hd : utf8Decode b with
        | none => rfl
        | some cs => rw [isValidUtf8, hd] at h; simp at h
      unfold parseRequest
      rw [hd]
  · intro cs headerEnd requestLine headerLines methodTok pathTok versionTok restToks m
      hd hf hlns hsp hm
    simp [parseRequest, parseDecoded, hd, hf, hlns, hsp, hm, Except.isOk,
      Except.toBool]

/-- Witness for `c3_parse_utf8` at concrete buffers. -/
theorem c3_parse_utf8_witness :
    (parseRequest (bstr "GET /i HTTP/1.1\r\nHost: h\r\n\r\n")).isOk = true ∧
    parseRequest [255] = .error .invalidUtf8 :=
  ⟨(c3_parse_utf8 (bstr "GET /i HTTP/1.1\r\nHost: h\r\n\r\n")).2
      (str "GET /i HTTP/1.1\r\nHost: h\r\n\r\n") 24
      (str "GET /i HTTP/1.1") [str "Host: h"]
      (str "GET") (str "/i") (str "HTTP/1.1") [] .get
      (by decide) (by decide) (by decide) (by decide) (by decide),
   ((c3_parse_utf8 [255]).1).mpr (by decide)⟩

/-- C5: in state Writing, a write that reaches the end of the write
buffer resets the connection to Reading with both buffers empty and
cursor 0 when keep-alive holds, and closes it otherwise; and installing a
response recomputes keep-alive from that response's Connection header. -/
theorem c5_write_drain (c : Connection) (n now : Nat) (resp : Response)
    (hst : c.state = .writing)
    (hlt : c.bytesWritten < c.writeBuffer.length)
    (hn : 0 < n)
    (hend : c.writeBuffer.length ≤ c.bytesWritten + n) :
    (c.keepAlive = true →
      (c.write (.ok n) now).1 =
        { c with readBuffer := [], writeBuffer := [], bytesWritten := 0,
                 state := .reading, lastActivity := now }) ∧
    (c.keepAlive = false →
      (c.write (.ok n) now).1 =
        { c with bytesWritten := c.bytesWritten + n, lastActivity := now,
                 state := .closed }) ∧
    (c.setResponse resp).keepAlive = resp.headers.keepAlive := by
  refine ⟨?_, ?_, rfl⟩ <;> intro hka
  · cases n with
    | zero => exact absurd hn (by omega)
    | succ i =>
      unfold Connection.write
      rw [if_neg (by omega)]
      simp only []
      rw [if_pos (by simp; omega)]
      simp [hka]
  · cases n with
    | zero => exact absurd hn (by omega)
    | succ i =>
      unfold Connection.write
      rw [if_neg (by omega)]
      simp only []
      rw [if_pos (by simp; omega)]
      simp [hka]

/-- A concrete connection mid-write for the C5 witness. -/
def c5Conn : Connection :=
  { Connection.new 1 0 with
    state := .writing, writeBuffer := [7, 8]
    bytesWritten := 1, readBuffer := [3] }

/-- Witness for `c5_write_drain` at a concrete connection. -/
theorem c5_write_drain_witness :
    (c5Conn.write (.ok 1) 9).1 =
      { c5Conn with readBuffer := [], writeBuffer := [], bytesWritten := 0,
                    state := .reading, lastActivity := 9 } ∧
    (({ c5Conn with keepAlive := false }).write (.ok 1) 9).1.state = .closed ∧
    (c5Conn.setResponse (Response.new .ok)).keepAlive =
      (Response.new .ok).headers.keepAlive := by
  refine ⟨?_, ?_, ?_⟩
  · exact (c5_write_drain c5Conn 1 9 (Response.new .ok) rfl (by decide)
      (by decide) (by decide)).1 rfl
  · rw [(c5_write_drain { c5Conn with keepAlive := false } 1 9 (Response.new .ok)
      rfl (by decide) (by decide) (by decide)).2.1 rfl]
  · exact (c5_write_drain c5Conn 1 9 (Response.new .ok) rfl (by decide)
      (by decide) (by decide)).2.2

/-- C9: a header line without a colon is skipped — folding the header
lines with it inserted anywhere yields exactly the headers without it —
and whenever a valid-UTF-8 buffer containing CR LF CR LF makes `parse`
fail, the error is one of the request-line or method checks. -/
theorem c9_colonless_lines (l1 l2 : List Str) (cf : Str) (b : List Nat)
    (e : ParseErr) (cs : Str) :
    (findSubIdx [':'] cf = none →
      foldHeaderLines (l1 ++ cf :: l2) = foldHeaderLines (l1 ++ l2)) ∧
    (utf8Decode b = some cs →
      findSubIdx (str "\r\n\r\n") cs ≠ none →
      parseRequest b = .error e →
      e = .missingRequestLine ∨ e = .missingMethod ∨ e = .invalidMethod ∨
      e = .missingPath ∨ e = .missingVersion) := by
  constructor
  · intro hcf
    unfold foldHeaderLines
    rw [List.foldl_append, List.foldl_append, List.foldl_cons]
    simp only [hcf]
  · intro hd hne hp
    unfold parseRequest at hp
    rw [hd] at hp
    exact parseDecoded_err_cases cs e hne hp

/-- Witness for `c9_colonless_lines` at concrete lines and buffer. -/
theorem c9_colonless_lines_witness :
    foldHeaderLines [str "A: 1", str "junk", str "B: 2"] =
      foldHeaderLines [str "A: 1", str "B: 2"] ∧
    (ParseErr.invalidMethod = .missingRequestLine ∨
     ParseErr.invalidMethod = .missingMethod ∨
     ParseErr.invalidMethod = .invalidMethod ∨
     ParseErr.invalidMethod = .missingPath ∨
     ParseErr.invalidMethod = .missingVersion) :=
  ⟨(c9_colonless_lines [str "A: 1"] [str "B: 2"] (str "junk")
      [] .invalidMethod []).1 (by decide),
   (c9_colonless_lines [] [] [] (bstr "ZZZ / HTTP/1.1\r\n\r\n") .invalidMethod
      (str "ZZZ / HTTP/1.1\r\n\r\n")).2 (by decide) (by decide) (by decide)⟩

/-- C10: `Connection::read` yields `Ok(0)` both on peer close — where the
state becomes Closed and nothing else changes — and on would-block —
where the connection, its buffers and its activity stamp are left
entirely unchanged and no `Err` is surfaced. -/
theorem c10_read_ok_zero (c : Connection) (now : Nat) :
    c.read (.ok []) now = ({ c with state := .closed }, .ok 0) ∧
    c.read .wouldBlock now = (c, .ok 0) :=
  ⟨rfl, rfl⟩

/-- C6: route matching considers exactly the routes whose path is `/` or
a literal prefix; `find_route` returns a matching route of maximal path
length and fails only when no route matches; the `/` route matches every
path; and with no matching route the handler answers 404. -/
theorem c6_route_selection (server : ServerConfig) (path : Str) (fs : Fs)
    (req : Request) (now : Nat) :
    (∀ r ∈ server.routes,
      r.matches path = (decide (r.path = str "/") || r.path.isPrefixOf path)) ∧
    (server.findRoute path = none → ∀ r ∈ server.routes, r.matches path = false) ∧
    (∀ r, server.findRoute path = some r →
      r ∈ server.routes ∧ r.matches path = true ∧
      ∀ r2 ∈ server.routes, r2.matches path = true →
        r2.path.length ≤ r.path.length) ∧
    (∀ r ∈ server.routes, r.path = str "/" → r.matches path = true) ∧
    (server.findRoute req.path = none →
      handleRequest fs server req now = some (errorResponse fs server 404) ∧
      (errorResponse fs server 404).status = .notFound) := by
  refine ⟨?_, ?_, ?_, ?_, ?_⟩
  · intro r _
    unfold Route.matches
    by_cases h : r.path = str "/" <;> simp [h]
  · intro hnone r hr
    by_contra hm
    have hmt : r.matches path = true := by
      revert hm; cases r.matches path <;> simp
    have hmem : r ∈ server.routes.filter (fun r => r.matches path) :=
      List.mem_filter.mpr ⟨hr, hmt⟩
    have hne : server.routes.filter (fun r => r.matches path) ≠ [] := by
      intro h0; rw [h0] at hmem; cases hmem
    have hsome := maxByKeyLast_isSome (fun r => r.path.length) _ hne
    unfold ServerConfig.findRoute at hnone
    rw [hnone] at hsome
    simp at hsome
  · intro r hfr
    unfold ServerConfig.findRoute at hfr
    obtain ⟨hmem, hmax⟩ := maxByKeyLast_spec _ _ _ hfr
    obtain ⟨hr, hmt⟩ := List.mem_filter.mp hmem
    exact ⟨hr, hmt, fun r2 hr2 hm2 => hmax r2 (List.mem_filter.mpr ⟨hr2, hm2⟩)⟩
  · intro r _ hp
    unfold Route.matches
    simp [hp]
  · intro hnone
    refine ⟨?_, errorResponse_404_status fs server⟩
    unfold handleRequest
    rw [hnone]

/-- A server with `/` and `/api` routes for the C6 witness. -/
def c6Server : ServerConfig :=
  { serverName := str "s", host := str "h", ports := [80], root := str "www",
    clientMaxBodySize := 1000, errorPages := [],
    routes := [Route.new (str "/"), Route.new (str "/api")], timeout := 60 }

/-- Witness for `c6_route_selection` at concrete servers and paths. -/
theorem c6_route_selection_witness :
    (Route.new (str "/api") ∈ c6Server.routes ∧
     (Route.new (str "/api")).matches (str "/api/x") = true ∧
     ∀ r2 ∈ c6Server.routes, r2.matches (str "/api/x") = true →
       r2.path.length ≤ (Route.new (str "/api")).path.length) ∧
    (handleRequest trivialFs { c6Server with routes := [Route.new (str "/a")] }
        (Request.new .get (str "/b")) 0 =
      some (errorResponse trivialFs
        { c6Server with routes := [Route.new (str "/a")] } 404) ∧
     (errorResponse trivialFs
        { c6Server with routes := [Route.new (str "/a")] } 404).status = .notFound) :=
  ⟨(c6_route_selection c6Server (str "/api/x") trivialFs
      (Request.new .get (str "/api/x")) 0).2.2.1 _ (by decide),
   (c6_route_selection { c6Server with routes := [Route.new (str "/a")] }
      (str "/b") trivialFs (Request.new .get (str "/b")) 0).2.2.2.2 (by decide)⟩

/-- C7: the body builder stores the body and a Content-Length equal to
its byte length, and serialization is the status line, one line per
(name, value) pair, exactly one blank CR LF line, then the body. -/
theorem c7_serialization (r : Response) (b : List Nat) :
    ((r.withBody b).headers.get (str "content-length") = some (natStr b.length) ∧
     (r.withBody b).body = b) ∧
    r.toBytes =
      utf8Encode (r.version ++ str " " ++ natStr r.status.code ++ str " " ++
        r.status.reason) ++ [13, 10] ++
      ((r.headers.entries.map (fun e =>
        (e.2.map (fun v => utf8Encode (e.1 ++ str ": " ++ v) ++ [13, 10])).flatten)).flatten ++
      ([13, 10] ++ r.body)) := by
  refine ⟨⟨Headers.get_set_eq _ _ _ _ (by decide), rfl⟩, ?_⟩
  have hcrlf : utf8Encode (str "\r\n") = [13, 10] := by decide
  have key : ∀ e : Str × List Str,
      utf8Encode ((e.2.map (fun v => e.1 ++ str ": " ++ v ++ str "\r\n")).flatten) =
      (e.2.map (fun v => utf8Encode (e.1 ++ str ": " ++ v) ++ [13, 10])).flatten := by
    intro e
    rw [utf8Encode_flatten, List.map_map]
    congr 1
    congr 1
    funext v
    simp only [Function.comp]
    rw [utf8Encode_append, hcrlf]
  unfold Response.toBytes Headers.toHttpString
  rw [utf8Encode_flatten, List.map_map,
    show (utf8Encode ∘ fun e : Str × List Str =>
        (e.2.map (fun v => e.1 ++ str ": " ++ v ++ str "\r\n")).flatten) =
      (fun e : Str × List Str =>
        (e.2.map (fun v => utf8Encode (e.1 ++ str ": " ++ v) ++ [13, 10])).flatten)
      from funext key,
    utf8Encode_append (r.version ++ str " " ++ r.status.display) (str "\r\n"), hcrlf]
  unfold StatusCode.display
  simp [List.append_assoc]

/- ---------------------------------------------------------------- -/
/- C8: query parsing                                                  -/
/- ---------------------------------------------------------------- -/

/-- One `&`-separated pair as the amended claim reads it: split at the
first `=` and decode both halves; a non-empty pair without `=` maps its
decoded text to the empty value; an empty pair contributes nothing. -/
def claimPair (pair : Str) : Option (Str × Str) :=
  match findSubIdx ['='] pair with
  | some eqPos =>
    some (urlDecode (pair.take eqPos), urlDecode (pair.drop (eqPos + 1)))
  | none => if pair = [] then none else some (urlDecode pair, [])

/-- The pair list of a query string under the amended claim. -/
def specQueryPairs (queryStr : Str) : List (Str × Str) :=
  (splitOnElem '&' queryStr).filterMap claimPair

/-- Last-writer-wins lookup over the pair list (the amended claim's
query mapping). -/
def specQueryLookup (queryStr : Str) (k : Str) : Option Str :=
  ((specQueryPairs queryStr).reverse.find? (fun e => e.1 = k)).map (·.2)

/-- Percent-decoding as claim C8 states it: a `%` followed by exactly two
hex digits becomes that byte value; anything else is preserved literally;
`+` becomes a space. -/
def claimDecode : Str → Str
  | [] => []
  | '%' :: c1 :: c2 :: rest =>
    if (charDigit 16 c1).isSome ∧ (charDigit 16 c2).isSome then
      Char.ofNat ((charDigit 16 c1).getD 0 * 16 + (charDigit 16 c2).getD 0) ::
        claimDecode rest
    else '%' :: c1 :: c2 :: claimDecode rest
  | '%' :: c1 :: [] => ['%', c1]
  | '%' :: [] => ['%']
  | '+' :: rest => ' ' :: claimDecode rest
  | c :: rest => c :: claimDecode rest

/-- The query mapping exactly as claim C8 states it (every pair kept,
claim-strict decoding, last writer wins). -/
def claimLookupAsStated (queryStr : Str) (k : Str) : Option Str :=
  (((splitOnElem '&' queryStr).map (fun pair =>
    match findSubIdx ['='] pair with
    | some eqPos =>
      (claimDecode (pair.take eqPos), claimDecode (pair.drop (eqPos + 1)))
    | none => (claimDecode pair, ([] : Str)))).reverse.find?
      (fun e => e.1 = k)).map (·.2)

/-- C8 counterexample: on the request target `/p?&%+F` the claim's
mapping contains the keys `""` (from the empty pair) and `"%+F"` (since
`+F` is not two hex digits) — but the code's query skips the empty pair
and decodes `%+F` to the character 0x0F, because `u8::from_str_radix`
accepts a leading `+`.  The two mappings disagree on all three keys. -/
theorem c8_counterexample :
    claimLookupAsStated (str "&%+F") (str "") = some [] ∧
    qGet (parsePathAndQuery (str "/p?&%+F")).2 (str "") = none ∧
    claimLookupAsStated (str "&%+F") (str "%+F") = some [] ∧
    qGet (parsePathAndQuery (str "/p?&%+F")).2 (str "%+F") = none ∧
    claimLookupAsStated (str "&%+F") [Char.ofNat 15] = none ∧
    qGet (parsePathAndQuery (str "/p?&%+F")).2 [Char.ofNat 15] = some [] := by
  decide

/-- The lookup of the query map built by the code's fold equals the
last-writer-wins lookup over the amended claim's pair list. -/
theorem foldPairs_lookup (ps : List Str) (m : List (Str × Str)) (k : Str) :
    qGet (ps.foldl (fun m pair =>
      match findSubIdx ['='] pair with
      | some eqPos =>
        qInsert (urlDecode (pair.take eqPos)) (urlDecode (pair.drop (eqPos + 1))) m
      | none => if pair ≠ [] then qInsert (urlDecode pair) [] m else m) m) k =
    (match (ps.filterMap claimPair).reverse.find? (fun e => e.1 = k) with
     | some e => some e.2
     | none => qGet m k) := by
  induction ps generalizing m with
  | nil => simp
  | cons p ps ih =>
    rw [List.foldl_cons, ih, List.filterMap_cons]
    cases hcp : claimPair p with
    | none =>
      have hstep : (match findSubIdx ['='] p with
          | some eqPos =>
            qInsert (urlDecode (p.take eqPos)) (urlDecode (p.drop (eqPos + 1))) m
          | none => if p ≠ [] then qInsert (urlDecode p) [] m else m) = m := by
        unfold claimPair at hcp
        cases hf : findSubIdx ['='] p with
        | some i => rw [hf] at hcp; simp at hcp
        | none =>
          rw [hf] at hcp
          by_cases hp : p = []
          · simp [hp]
          · rw [if_neg hp] at hcp; simp at hcp
      rw [hstep]
    | some kv =>
      have hstep : (match findSubIdx ['='] p with
          | some eqPos =>
            qInsert (urlDecode (p.take eqPos)) (urlDecode (p.drop (eqPos + 1))) m
          | none => if p ≠ [] then qInsert (urlDecode p) [] m else m) =
          qInsert kv.1 kv.2 m := by
        unfold claimPair at hcp
        cases hf : findSubIdx ['='] p with
        | some i =>
          rw [hf] at hcp
          injection hcp with h2
          rw [← h2]
        | none =>
          rw [hf] at hcp
          by_cases hp : p = []
          · rw [if_pos hp] at hcp; cases hcp
          · rw [if_neg hp] at hcp
            injection hcp with h2
            rw [← h2]
            simp [hp]
      rw [hstep, List.reverse_cons, List.find?_append]
      cases hfa : (ps.filterMap claimPair).reverse.find? (fun e => e.1 = k) with
      | some e => simp [Option.or]
      | none =>
        rw [qGet_qInsert]
        by_cases hk : k = kv.1
        · simp [Option.or, List.find?, hk]
        · simp [Option.or, List.find?, hk, Ne.symm hk]

/-- C8 (amended): the request target splits at the first `?` into path
and query, and the code's query mapping agrees with the amended claim's
mapping: each non-empty `&`-separated pair is decoded (with Rust's
base-16 u8 parsing for `%`-escapes), a non-empty pair without `=` maps to
the empty value, and the last pair with a given key wins. -/
theorem c8_query (uri : Str) (k : Str) :
    (parsePathAndQuery uri).1 =
      (match findSubIdx ['?'] uri with
       | none => uri
       | some pos => uri.take pos) ∧
    qGet (parsePathAndQuery uri).2 k =
      (match findSubIdx ['?'] uri with
       | none => none
       | some pos => specQueryLookup (uri.drop (pos + 1)) k) := by
  cases hq : findSubIdx ['?'] uri with
  | none => exact ⟨by simp [parsePathAndQuery, hq], by simp [parsePathAndQuery, hq, qGet]⟩
  | some pos =>
    refine ⟨by simp [parsePathAndQuery, hq], ?_⟩
    simp only [parsePathAndQuery, hq]
    rw [foldPairs_lookup]
    unfold specQueryLookup specQueryPairs
    cases hfa : ((splitOnElem '&' (uri.drop (pos + 1))).filterMap claimPair).reverse.find?
        (fun e => e.1 = k) with
    | some e => simp [hfa]
    | none => simp [hfa, qGet]

/-- The C4 counterexample stdout: two stray continuation bytes, then the
separator. -/
def c4Bad : List Nat := [128, 128, 13, 10, 13, 10]

/-- C4 counterexample: the lossy decoding expands the two invalid bytes
to two three-byte replacement characters, so the separator is found at
offset 6 of the lossy string while the raw stdout has only 6 bytes;
slicing `output[pos + 4..]` panics (modelled as `none`), and no response
with the claimed properties is produced. -/
theorem c4_counterexample :
    utf8Lossy c4Bad = fffd ++ fffd ++ [13, 10, 13, 10] ∧
    findSubIdx crlfcrlfB (utf8Lossy c4Bad) = some 6 ∧
    c4Bad.length = 6 ∧
    parseCgiOutput c4Bad = none := by
  decide

/-- C4 (amended): whenever CGI-output parsing returns a response, its
Content-Length equals the final body byte length; without a separator the
whole stdout is the body with status 200 and Content-Type text/html;
when no header line names Content-Type the default text/html is
inserted; a Status line changes the status exactly to supported codes
and is ignored otherwise; and a Location line on a still-200 response
sets the header and upgrades the status to 302. -/
theorem c4_cgi_output :
    (∀ out r, parseCgiOutput out = some r →
      r.headers.get (str "content-length") = some (natStr r.body.length)) ∧
    (∀ out r, parseCgiOutput out = some r → cgiSep out = none →
      r.body = out ∧ r.status = .ok ∧
      r.headers.get (str "content-type") = some (str "text/html")) ∧
    (∀ out r pos sepLen, parseCgiOutput out = some r →
      cgiSep out = some (pos, sepLen) →
      (∀ line ∈ rustLinesB ((utf8Lossy out).take pos), isCTLineB line = false) →
      r.headers.get (str "content-type") = some (str "text/html")) ∧
    (∀ (acc : Response × Bool) line colonPos tok code,
      findSubIdx [58] line = some colonPos →
      lowerStr (decodeD (bTrim (line.take colonPos))) = str "status" →
      (splitWs (decodeD (bTrim (line.drop (colonPos + 1))))).head? = some tok →
      parseU16 tok = some code →
      (∀ st, StatusCode.fromCode code = some st →
        processCgiLine acc line = ({ acc.1 with status := st }, acc.2)) ∧
      (StatusCode.fromCode code = none → processCgiLine acc line = acc)) ∧
    (∀ (acc : Response × Bool) line colonPos,
      findSubIdx [58] line = some colonPos →
      lowerStr (decodeD (bTrim (line.take colonPos))) = str "location" →
      acc.1.status = .ok →
      (processCgiLine acc line).1.status = .found ∧
      (processCgiLine acc line).1.headers.get (str "location") =
        some (decodeD (bTrim (line.drop (colonPos + 1))))) := by
  refine ⟨?_, ?_, ?_, ?_, ?_⟩
  · intro out r h
    unfold parseCgiOutput at h
    cases hs : cgiSep out with
    | none =>
      rw [hs] at h
      dsimp only at h
      injection h with h2
      subst h2
      exact Headers.get_set_eq _ _ _ _ (by decide)
    | some pk =>
      obtain ⟨pos, sepLen⟩ := pk
      rw [hs] at h
      dsimp only at h
      by_cases hlen : out.length < pos + sepLen
      · rw [if_pos hlen] at h; cases h
      · rw [if_neg hlen] at h
        injection h with h2
        subst h2
        exact Headers.get_set_eq _ _ _ _ (by decide)
  · intro out r h hsep
    unfold parseCgiOutput at h
    rw [hsep] at h
    dsimp only at h
    injection h with h2
    subst h2
    exact ⟨rfl, rfl,
      (Headers.get_set_ne _ _ _ _ (by decide)).trans
        (Headers.get_set_eq _ _ _ _ (by decide))⟩
  · intro out r pos sepLen h hsep hnoct
    unfold parseCgiOutput at h
    rw [hsep] at h
    dsimp only at h
    by_cases hlen : out.length < pos + sepLen
    · rw [if_pos hlen] at h; cases h
    · rw [if_neg hlen] at h
      have hflag : ((rustLinesB ((utf8Lossy out).take pos)).foldl processCgiLine
          (Response.new .ok, false)).2 = false := by
        rw [foldCgi_flag]
        simp only [Bool.false_or]
        exact List.any_eq_false.mpr (fun line hl => by simp [hnoct line hl])
      rw [hflag] at h
      simp only [Bool.false_eq_true, if_false] at h
      injection h with h2
      subst h2
      exact (Headers.get_set_ne _ _ _ _ (by decide)).trans
        (Headers.get_set_eq _ _ _ _ (by decide))
  · intro acc line colonPos tok code hcol hname htok hcode
    constructor
    · intro st hst
      unfold processCgiLine
      rw [hcol]
      dsimp only
      rw [if_pos hname]
      simp only [htok, hcode, hst]
    · intro hnone
      unfold processCgiLine
      rw [hcol]
      dsimp only
      rw [if_pos hname]
      simp only [htok, hcode, hnone]
  · intro acc line colonPos hcol hname hok
    unfold processCgiLine
    rw [hcol]
    dsimp only
    have hns : lowerStr (decodeD (bTrim (line.take colonPos))) ≠ str "status" := by
      rw [hname]; decide
    have hnc : lowerStr (decodeD (bTrim (line.take colonPos))) ≠ str "content-type" := by
      rw [hname]; decide
    rw [if_neg hns, if_neg hnc, if_pos hname]
    simp only [hok]
    exact ⟨rfl, Headers.get_set_eq _ _ _ _ (by decide)⟩

/-- A concrete CGI stdout for the C4 witness. -/
def c4W : List Nat := bstr "Status: 404 Not Found\r\nX: y\r\n\r\nOK"

/-- Witness for `c4_cgi_output` at concrete CGI outputs and lines. -/
theorem c4_cgi_output_witness :
    ((parseCgiOutput c4W).getD (Response.new .ok)).headers.get
        (str "content-length") =
      some (natStr ((parseCgiOutput c4W).getD (Response.new .ok)).body.length) ∧
    processCgiLine (Response.new .ok, false) (bstr "Status: 500 Oops") =
      ({ Response.new .ok with status := .internalServerError }, false) ∧
    (processCgiLine (Response.new .ok, false) (bstr "Location: /x")).1.status =
      .found := by
  refine ⟨?_, ?_, ?_⟩
  · exact c4_cgi_output.1 c4W _ (by decide)
  · exact (c4_cgi_output.2.2.2.1 (Response.new .ok, false) (bstr "Status: 500 Oops")
      6 (str "500") 500 (by decide) (by decide) (by decide) (by decide)).1
      .internalServerError (by decide)
  · exact ((c4_cgi_output.2.2.2.2 (Response.new .ok, false) (bstr "Location: /x")
      8 (by decide) (by decide) (by decide)).1)

end LocalhostSpec
